import Mathlib

/-!
Shallow embedding of the English Text Analyzer analysis core
(`AnalysisEngineWrapper`, `GeminiAPIClient`, `AnalysisPrompts`) and proofs
about it.  Every definition mirrors the corresponding JavaScript source
function; JavaScript strings are Lean `String`s, JavaScript objects with
string keys are association lists in insertion order, and the remote
endpoint together with the wall clock are explicit parameters.  The
`RateLimiter` only delays execution and never changes any value, so it is
not part of the value-level model.
-/

/-! ## JavaScript string primitives -/

/-- The ASCII part of the JavaScript `\s` character class (space, tab,
newline, carriage return, vertical tab, form feed).  The inputs handled by
the analyzer are ASCII, so the Unicode space characters of `\s` are not
modelled. -/
def jsIsSpace (c : Char) : Bool :=
  c == ' ' || c == '\t' || c == '\n' || c == '\r' ||
  c == Char.ofNat 11 || c == Char.ofNat 12

/-- Model of `String.prototype.trim` on a character list: drop whitespace from both
ends. -/
def jsTrimList (l : List Char) : List Char :=
  ((l.dropWhile jsIsSpace).reverse.dropWhile jsIsSpace).reverse

/-- Model of `String.prototype.trim`. -/
def jsTrim (s : String) : String :=
  String.mk (jsTrimList s.toList)

/-- Whether `pre` is a prefix of `l` (character-wise). -/
def charsPrefixOf : List Char → List Char → Bool
  | [], _ => true
  | _ :: _, [] => false
  | a :: as, b :: bs => a == b && charsPrefixOf as bs

/-- Whether `needle` occurs as a contiguous substring of `hay`
(`String.prototype.includes`). -/
def charsContainsSub (needle : List Char) : List Char → Bool
  | [] => needle.isEmpty
  | b :: bs => charsPrefixOf needle (b :: bs) || charsContainsSub needle bs

/-- Model of `hay.includes(needle)` for strings. -/
def strContainsSub (hay needle : String) : Bool :=
  charsContainsSub needle.toList hay.toList

/-- Model of `String.prototype.split` with a single-character separator:
`splitOnChar c l` never returns `[]` and keeps empty pieces, matching the
JavaScript behaviour (`"".split` gives `[""]`, trailing separators give a
trailing empty piece). -/
def splitOnChar (c : Char) : List Char → List (List Char)
  | [] => [[]]
  | x :: xs =>
    match splitOnChar c xs with
    | [] => [[]]
    | y :: ys => if x == c then [] :: y :: ys else (x :: y) :: ys

/-- Model of `s.split(c)` for strings. -/
def jsSplit (c : Char) (s : String) : List String :=
  (splitOnChar c s.toList).map String.mk

/-- Model of `Array.prototype.join` with a single-character separator, on character
lists. -/
def joinWith (c : Char) : List (List Char) → List Char
  | [] => []
  | [x] => x
  | x :: y :: ys => x ++ c :: joinWith c (y :: ys)

/-- Model of `lines.join(sep)` for strings with a one-character separator. -/
def jsJoin (c : Char) (ss : List String) : String :=
  String.mk (joinWith c (ss.map String.toList))

/-! ## JavaScript objects and `Map`s as association lists

A JavaScript object literal (and likewise a `Map`) keeps keys in insertion
order; assigning to an existing key overwrites its value in place, a new
key is appended.  `jsObjGet`/`jsObjSet` implement exactly that on an
association list. -/

/-- Property read `obj[k]`: first entry with key `k`, if any. -/
def jsObjGet {α : Type} : List (String × α) → String → Option α
  | [], _ => none
  | p :: rest, k => if p.1 == k then some p.2 else jsObjGet rest k

/-- Property write `obj[k] = v`: overwrite in place or append. -/
def jsObjSet {α : Type} : List (String × α) → String → α → List (String × α)
  | [], k, v => [(k, v)]
  | p :: rest, k, v => if p.1 == k then (k, v) :: rest else p :: jsObjSet rest k v

/-! ## `countWords` -/

/-- Count the maximal runs of non-whitespace characters. -/
def countRunsGo : List Char → Bool → Nat → Nat
  | [], _, n => n
  | c :: rest, inWord, n =>
    if jsIsSpace c then countRunsGo rest false n
    else countRunsGo rest true (if inWord then n else n + 1)

/-- Model of `countWords(text)`: `text.trim() ? text.trim().split(/\s+/).length : 0`.
On a trimmed non-empty string, splitting on whitespace runs yields one
token per maximal non-whitespace run. -/
def countWords (text : String) : Nat :=
  let t := jsTrimList text.toList
  if t.isEmpty then 0 else countRunsGo t false 0

/-! ## `simpleHash` and `generateCacheKey` -/

/-- Coerce an integer to a signed 32-bit value, as JavaScript `| 0`, `& x`
and `<<` do. -/
def toInt32 (x : Int) : Int :=
  let m := x % 4294967296
  if m < 2147483648 then m else m - 4294967296

/-- Model of `simpleHash(str)` before the base-36 rendering:
`hash = ((hash << 5) - hash) + charCodeAt(i); hash = hash & hash`.
`<<` coerces its operand to int32 and `& hash` coerces the (exact) float
sum back to int32.  `charCodeAt` returns UTF-16 code units; for the ASCII
texts handled here that is `Char.toNat`. -/
def simpleHashInt (s : String) : Int :=
  s.toList.foldl (fun h c => toInt32 (toInt32 (h * 32) - h + c.toNat)) 0

/-- Digit characters used by `Number.prototype.toString(36)`: `0-9a-z`. -/
def digitChar36 (d : Nat) : Char :=
  if d < 10 then Char.ofNat (48 + d) else Char.ofNat (87 + d)

/-- Base-36 digit expansion, most significant first.  The first argument is
fuel (any value `≥` the number of digits works; callers pass `n + 1`). -/
def toBase36Go : Nat → Nat → List Char → List Char
  | 0, _, acc => acc
  | fuel + 1, n, acc =>
    if n == 0 then acc else toBase36Go fuel (n / 36) (digitChar36 (n % 36) :: acc)

/-- Model of `Math.abs(hash).toString(36)`. -/
def toBase36 (n : Nat) : String :=
  if n == 0 then "0" else String.mk (toBase36Go (n + 1) n [])

/-- Model of `simpleHash(str)` as used by `generateCacheKey`. -/
def simpleHash (s : String) : String :=
  toBase36 (simpleHashInt s).natAbs

/-! ## `modules.sort()`

`Array.prototype.sort()` without a comparator compares elements as strings
by UTF-16 code units.  `charsLe` is that order on character lists; the sort
itself is modelled by insertion sort, which agrees with any correct sorting
algorithm because the order is total and antisymmetric. -/

/-- Lexicographic comparison of character lists by code unit. -/
def charsLe : List Char → List Char → Bool
  | [], _ => true
  | _ :: _, [] => false
  | a :: as, b :: bs =>
    if a.toNat < b.toNat then true
    else if b.toNat < a.toNat then false
    else charsLe as bs

/-- The string order used by `Array.prototype.sort()`. -/
def jsStrLe (a b : String) : Prop :=
  charsLe a.toList b.toList = true

instance : DecidableRel jsStrLe := fun a b => by
  unfold jsStrLe
  infer_instance

/-- Model of `modules.sort()` (the source sorts the array in place; this returns the
sorted list, and `analyzeText` below threads it everywhere the mutated
array is subsequently read). -/
def sortJS (l : List String) : List String :=
  List.insertionSort jsStrLe l

/-- Model of `generateCacheKey(text, modules)`:
`simpleHash(text) + "_" + modules.sort().join(',')`. -/
def generateCacheKey (text : String) (modules : List String) : String :=
  simpleHash text ++ "_" ++ jsJoin ',' (sortJS modules)

/-! ## `extractSections` -/

/-- The numbered-heading test `/^\d+\.\s+[A-Z]/` applied to a (trimmed)
line: one or more digits, a dot, at least one whitespace character, then an
ASCII capital letter. -/
def matchesHeading (l : List Char) : Bool :=
  let ds := l.takeWhile Char.isDigit
  if ds.isEmpty then false
  else
    match l.drop ds.length with
    | '.' :: rest =>
      let sp := rest.takeWhile jsIsSpace
      if sp.isEmpty then false
      else
        match rest.drop sp.length with
        | c :: _ => 'A' ≤ c && c ≤ 'Z'
        | [] => false
    | _ => false

/-- Model of `replace(/^\d+\.\s+/, '')`: strip a leading `digits dot whitespace+`
group if present, otherwise leave the list unchanged. -/
def stripNumDotWs (l : List Char) : List Char :=
  let ds := l.takeWhile Char.isDigit
  if ds.isEmpty then l
  else
    match l.drop ds.length with
    | '.' :: rest =>
      let sp := rest.takeWhile jsIsSpace
      if sp.isEmpty then l else rest.drop sp.length
    | _ => l

/-- Section naming for a heading line:
`trimmedLine.toLowerCase().replace(/^\d+\.\s+/, '').replace(/[^a-z\s]/g, '').trim()`. -/
def sectionName (t : String) : String :=
  let lowered := (t.toList.map Char.toLower)
  let stripped := stripNumDotWs lowered
  let filtered := stripped.filter (fun c => ('a' ≤ c && c ≤ 'z') || jsIsSpace c)
  String.mk (jsTrimList filtered)

/-- Loop state of `extractSections`: the accumulated `sections` object, the
current section name and the pending content lines. -/
structure SecState where
  sections : List (String × String)
  currentSection : String
  currentContent : List String
deriving DecidableEq

/-- One line of the `extractSections` scan. -/
def extractSectionsStep (st : SecState) (line : String) : SecState :=
  let t := jsTrim line
  if matchesHeading t.toList then
    let sections :=
      if st.currentContent.isEmpty then st.sections
      else jsObjSet st.sections st.currentSection (jsJoin '\n' st.currentContent)
    ⟨sections, sectionName t, []⟩
  else if t.toList.isEmpty then st
  else ⟨st.sections, st.currentSection, st.currentContent ++ [t]⟩

/-- Model of `extractSections(response)`: split into lines, accumulate trimmed
non-empty lines under the most recent numbered heading (lines before the
first heading go to `general`), and store each section's content joined
with newlines. -/
def extractSections (response : String) : List (String × String) :=
  let final := (jsSplit '\n' response).foldl extractSectionsStep ⟨[], "general", []⟩
  if final.currentContent.isEmpty then final.sections
  else jsObjSet final.sections final.currentSection (jsJoin '\n' final.currentContent)

/-! ## `extractWordList` and the per-category extractors -/

/-- Model of `/^\d+\./` : one or more digits followed by a dot. -/
def matchesNumDot (l : List Char) : Bool :=
  let ds := l.takeWhile Char.isDigit
  !ds.isEmpty && (l.drop ds.length).head? == some '.'

/-- The bullet test of `extractWordList`:
`trimmed.startsWith('-') || trimmed.startsWith('•') || trimmed.match(/^\d+\./)`. -/
def isBulletLine (l : List Char) : Bool :=
  (match l with
   | c :: _ => c == '-' || c == '•'
   | [] => false) || matchesNumDot l

/-- Model of `replace(/^[-•\d.]\s*/, '')`: the character class matches a single
character, so only the first marker character is removed, followed by any
whitespace run. -/
def stripBullet : List Char → List Char
  | [] => []
  | c :: rest =>
    if c == '-' || c == '•' || c.isDigit || c == '.' then rest.dropWhile jsIsSpace
    else c :: rest

/-- One line of the `extractWordList` scan: if the trimmed line looks
like a bullet, strip the marker, keep the text before the first `,` or
`;` (`split(/[,;]/)[0]`), trim it and collect it if non-empty. -/
def extractWordListStep (words : List String) (line : String) : List String :=
  let t := jsTrimList line.toList
  if isBulletLine t then
    let word := jsTrimList ((stripBullet t).takeWhile (fun c => !(c == ',' || c == ';')))
    if word.isEmpty then words else words ++ [String.mk word]
  else words

/-- Model of `extractWordList(content)`. -/
def extractWordList (content : String) : List String :=
  (jsSplit '\n' content).foldl extractWordListStep []

/-- Vocabulary difficulty buckets. -/
structure DifficultyLevels where
  basic : List String
  intermediate : List String
  advanced : List String
deriving DecidableEq

/-- Model of `extractDifficultyLevels(sections)`: scan the section entries in order;
a later matching section overwrites the bucket. -/
def extractDifficultyLevels (sections : List (String × String)) : DifficultyLevels :=
  sections.foldl
    (fun lv p =>
      if strContainsSub p.1 "basic" || strContainsSub p.1 "a1" || strContainsSub p.1 "a2" then
        ⟨extractWordList p.2, lv.intermediate, lv.advanced⟩
      else if strContainsSub p.1 "intermediate" || strContainsSub p.1 "b1" || strContainsSub p.1 "b2" then
        ⟨lv.basic, extractWordList p.2, lv.advanced⟩
      else if strContainsSub p.1 "advanced" || strContainsSub p.1 "c1" || strContainsSub p.1 "c2" then
        ⟨lv.basic, lv.intermediate, extractWordList p.2⟩
      else lv)
    ⟨[], [], []⟩

/-- Model of `extractAcademicVocabulary(sections)`: word list of the first section
whose name contains `"academic"`, else `[]`. -/
def extractAcademicVocabulary (sections : List (String × String)) : List String :=
  match sections.find? (fun p => strContainsSub p.1 "academic") with
  | some p => extractWordList p.2
  | none => []

/-- Model of `extractCollocations(sections)`. -/
def extractCollocations (sections : List (String × String)) : List String :=
  match sections.find? (fun p => strContainsSub p.1 "collocation" || strContainsSub p.1 "phrase") with
  | some p => extractWordList p.2
  | none => []

/-- Model of `extractTransitionWords(sections)`. -/
def extractTransitionWords (sections : List (String × String)) : List String :=
  match sections.find? (fun p => strContainsSub p.1 "transition" || strContainsSub p.1 "marker") with
  | some p => extractWordList p.2
  | none => []

/-- Model of `extractRecommendations(sections)`: the raw content of the first
section whose name contains `"recommendation"`, else a fixed message. -/
def extractRecommendations (sections : List (String × String)) : String :=
  match sections.find? (fun p => strContainsSub p.1 "recommendation") with
  | some p => p.2
  | none => "Text analysis completed successfully."

/-- The maximal digit runs of a string, in order — what
`content.match(/(\d+)/g)` returns. -/
def digitRuns : List Char → List (List Char)
  | [] => []
  | c :: rest =>
    if c.isDigit then
      match digitRuns rest with
      | run :: runs =>
        match rest with
        | d :: _ => if d.isDigit then (c :: run) :: runs else [c] :: run :: runs
        | [] => [c] :: runs
      | [] => [[c]]
    else digitRuns rest

/-- Sentence-type counts extracted by `extractSentenceTypes`. -/
structure SentenceTypes where
  simple : Nat
  compound : Nat
  complex : Nat
  compoundComplex : Nat
deriving DecidableEq

/-- Model of `extractSentenceTypes(sections)`: in each section whose name contains
`"sentence"` and whose content has at least four numbers, the first four
numbers become the counts (later matching sections overwrite). -/
def extractSentenceTypes (sections : List (String × String)) : SentenceTypes :=
  sections.foldl
    (fun types p =>
      if strContainsSub p.1 "sentence" then
        let runs := digitRuns p.2.toList
        if 4 ≤ runs.length then
          ⟨(String.mk (runs.getD 0 [])).toNat!, (String.mk (runs.getD 1 [])).toNat!,
           (String.mk (runs.getD 2 [])).toNat!, (String.mk (runs.getD 3 [])).toNat!⟩
        else types
      else types)
    ⟨0, 0, 0, 0⟩

/-- Model of `extractVoiceAnalysis` always returns `{active: 0, passive: 0}`. -/
structure VoiceAnalysis where
  active : Nat
  passive : Nat
deriving DecidableEq

/-- Search for `label`, then skip non-digits and capture `\d+\.?\d*`. -/
def regexLabelNumberGo (label : List Char) : List Char → Option String
  | [] => none
  | c :: cs =>
    if charsPrefixOf label (c :: cs) then
      let rest := (c :: cs).drop label.length
      let afterSkip := rest.dropWhile (fun d => !d.isDigit)
      match afterSkip with
      | [] => none
      | _ :: _ =>
        let ds := afterSkip.takeWhile Char.isDigit
        match afterSkip.drop ds.length with
        | '.' :: tail => some (String.mk (ds ++ '.' :: tail.takeWhile Char.isDigit))
        | _ => some (String.mk ds)
    else regexLabelNumberGo label cs

/-- The numeric text matched by `/label[^0-9]*(\d+\.?\d*)/i` after the
first (case-insensitive) occurrence of `label`, if a digit follows it.
The source stores `parseFloat` of this capture; the capture itself is kept
here. -/
def regexLabelNumber (label : String) (content : String) : Option String :=
  let lc := content.toList.map Char.toLower
  regexLabelNumberGo label.toList lc

/-- Readability metrics: each is the capture of the corresponding regex
when one matched (`parseFloat` of it in the source), absent otherwise. -/
structure ReadabilityMetrics where
  fleschKincaid : Option String
  gradeLevel : Option String
deriving DecidableEq

/-- Model of `extractReadabilityMetrics(sections)`: sections whose name contains
`"readability"` or `"metric"` contribute `flesch...` and `grade...`
matches; a field is only overwritten when its regex matches. -/
def extractReadabilityMetrics (sections : List (String × String)) : ReadabilityMetrics :=
  sections.foldl
    (fun metrics p =>
      if strContainsSub p.1 "readability" || strContainsSub p.1 "metric" then
        let f := regexLabelNumber "flesch" p.2
        let g := regexLabelNumber "grade" p.2
        ⟨(f.map some).getD metrics.fleschKincaid, (g.map some).getD metrics.gradeLevel⟩
      else metrics)
    ⟨none, none⟩

/-- First match of `/([ABC][12])/i` in a character list, uppercased. -/
def findCEFR : List Char → Option String
  | [] => none
  | c :: cs =>
    let u := c.toUpper
    if (u == 'A' || u == 'B' || u == 'C') then
      match cs with
      | d :: _ =>
        if d == '1' || d == '2' then some (String.mk [u, d]) else findCEFR cs
      | [] => none
    else findCEFR cs

/-- Model of `extractCEFRLevel(sections)`: scan the sections in order; the first
section (any name) whose content matches `/([ABC][12])/i` wins; default
`"B2"`. -/
def extractCEFRLevel : List (String × String) → String
  | [] => "B2"
  | p :: rest =>
    match findCEFR p.2.toList with
    | some code => code
    | none => extractCEFRLevel rest

/-- Model of `extractLexicalDiversity` always returns
`{score: 0.75, summary: 'Lexical diversity calculated'}`. -/
structure LexicalDiversity where
  score : ℚ
  summary : String
deriving DecidableEq

/-! ## The per-category structured results -/

/-- Model of `parseVocabularyResponse` output. -/
structure VocabularyStructured where
  difficultyLevels : DifficultyLevels
  academicVocabulary : List String
  collocations : List String
  frequencyAnalysis : String
deriving DecidableEq

/-- Model of `parseGrammarResponse` output; `tensePatterns` and `complexStructures`
are the constant summary strings of the source. -/
structure GrammarStructured where
  sentenceTypes : SentenceTypes
  tensePatterns : String
  complexStructures : String
  voiceAnalysis : VoiceAnalysis
deriving DecidableEq

/-- Model of `parseStructureResponse` output. -/
structure StructureStructured where
  paragraphOrganization : String
  coherenceMarkers : String
  transitionWords : List String
  textFlow : String
deriving DecidableEq

/-- Model of `parseContentResponse` output — all four fields are constant summary
strings in the source. -/
structure ContentStructured where
  mainIdeas : String
  supportingDetails : String
  argumentStructure : String
  evidenceTypes : String
deriving DecidableEq

/-- Model of `parseComplexityResponse` output. -/
structure ComplexityStructured where
  readabilityMetrics : ReadabilityMetrics
  cefrLevel : String
  lexicalDiversity : LexicalDiversity
  recommendations : String
deriving DecidableEq

def parseVocabularyResponse (response : String) : VocabularyStructured :=
  let sections := extractSections response
  ⟨extractDifficultyLevels sections, extractAcademicVocabulary sections,
   extractCollocations sections, "Frequency analysis completed"⟩

def parseGrammarResponse (response : String) : GrammarStructured :=
  let sections := extractSections response
  ⟨extractSentenceTypes sections, "Tense patterns identified",
   "Complex structures analyzed", ⟨0, 0⟩⟩

def parseStructureResponse (response : String) : StructureStructured :=
  let sections := extractSections response
  ⟨"Paragraph organization analyzed", "Coherence markers identified",
   extractTransitionWords sections, "Text flow analyzed"⟩

def parseContentResponse (_response : String) : ContentStructured :=
  ⟨"Main ideas identified", "Supporting details categorized",
   "Argument structure analyzed", "Evidence types identified"⟩

def parseComplexityResponse (response : String) : ComplexityStructured :=
  let sections := extractSections response
  ⟨extractReadabilityMetrics sections, extractCEFRLevel sections,
   ⟨(0.75 : ℚ), "Lexical diversity calculated"⟩, extractRecommendations sections⟩

/-- The `structured` field computed by `processModuleResponse`'s switch;
the `fallback` case is the `default:` branch `{summary: response}`. -/
inductive Structured
  | vocabulary (v : VocabularyStructured)
  | grammar (g : GrammarStructured)
  | structural (s : StructureStructured)
  | content (c : ContentStructured)
  | complexity (x : ComplexityStructured)
  | fallback (summary : String)
deriving DecidableEq

/-! ## `AnalysisPrompts` -/

/-- Model of `getVocabularyPrompt()`. -/
def vocabularyPrompt : String :=
  "You are an expert English language teacher analyzing vocabulary in a text for educational purposes. Please provide a detailed vocabulary analysis following this exact format:\n" ++
  "\n" ++
  "1. VOCABULARY DIFFICULTY LEVELS:\n" ++
  "   Basic (A1-A2 CEFR):\n" ++
  "   - [List 5-10 common, everyday words from the text]\n" ++
  "   \n" ++
  "   Intermediate (B1-B2 CEFR):\n" ++
  "   - [List 5-10 moderately challenging words from the text]\n" ++
  "   \n" ++
  "   Advanced (C1-C2 CEFR):\n" ++
  "   - [List 5-10 sophisticated, academic words from the text]\n" ++
  "\n" ++
  "2. ACADEMIC VOCABULARY:\n" ++
  "   - [List words that appear in the Academic Word List (AWL)]\n" ++
  "   - [Note any domain-specific terminology]\n" ++
  "\n" ++
  "3. COLLOCATIONS AND PHRASES:\n" ++
  "   - [List common word combinations found in the text]\n" ++
  "   - [Identify any idiomatic expressions]\n" ++
  "   - [Note fixed phrases or formulaic language]\n" ++
  "\n" ++
  "4. FREQUENCY ANALYSIS:\n" ++
  "   - Most frequent content words: [list top 5-7 words]\n" ++
  "   - Lexical diversity: [High/Medium/Low with brief explanation]\n" ++
  "   - Word families: [Group related words if present]\n" ++
  "\n" ++
  "Focus only on words that actually appear in the provided text. Provide specific examples and brief explanations for educational value."

/-- Model of `getGrammarPrompt()`. -/
def grammarPrompt : String :=
  "You are an expert English grammar teacher analyzing grammatical structures in a text. Please provide a detailed grammar analysis following this exact format:\n" ++
  "\n" ++
  "1. SENTENCE TYPES:\n" ++
  "   Simple sentences: [count] (e.g., \"[quote example from text]\")\n" ++
  "   Compound sentences: [count] (e.g., \"[quote example from text]\")\n" ++
  "   Complex sentences: [count] (e.g., \"[quote example from text]\")\n" ++
  "   Compound-complex sentences: [count] (e.g., \"[quote example from text]\")\n" ++
  "\n" ++
  "2. VERB TENSES AND VOICE:\n" ++
  "   Present tenses: [list specific examples from text]\n" ++
  "   Past tenses: [list specific examples from text]\n" ++
  "   Future tenses: [list specific examples from text]\n" ++
  "   Active voice: [percentage estimate] (e.g., \"[example from text]\")\n" ++
  "   Passive voice: [percentage estimate] (e.g., \"[example from text]\")\n" ++
  "   Modal verbs: [list modals found with their functions]\n" ++
  "\n" ++
  "3. CLAUSE ANALYSIS:\n" ++
  "   Main clauses: [count and brief description]\n" ++
  "   Subordinate clauses: [identify types found with examples]\n" ++
  "   Relative clauses: [list examples if present]\n" ++
  "\n" ++
  "4. COMPLEX STRUCTURES:\n" ++
  "   - Participial phrases: [quote examples if found]\n" ++
  "   - Gerund constructions: [quote examples if found]\n" ++
  "   - Infinitive constructions: [quote examples if found]\n" ++
  "   - Conditional sentences: [quote examples if found]\n" ++
  "   - Other complex patterns: [identify any other notable structures]\n" ++
  "\n" ++
  "Only analyze structures that actually appear in the provided text. Quote specific examples and explain their educational significance."

/-- Model of `getStructurePrompt()`. -/
def structurePrompt : String :=
  "You are an expert in text analysis focusing on organization and coherence. Please analyze the following text and provide:\n" ++
  "\n" ++
  "1. PARAGRAPH ORGANIZATION:\n" ++
  "   - Topic sentences identification\n" ++
  "   - Supporting sentences analysis\n" ++
  "   - Concluding sentences\n" ++
  "\n" ++
  "2. COHERENCE AND COHESION:\n" ++
  "   - Transition words and phrases\n" ++
  "   - Pronoun references\n" ++
  "   - Lexical cohesion (repetition, synonyms)\n" ++
  "\n" ++
  "3. TEXT FLOW:\n" ++
  "   - Logical progression of ideas\n" ++
  "   - Connection between paragraphs\n" ++
  "   - Overall organizational pattern\n" ++
  "\n" ++
  "4. DISCOURSE MARKERS:\n" ++
  "   - Sequence markers (first, then, finally)\n" ++
  "   - Contrast markers (however, although)\n" ++
  "   - Addition markers (furthermore, moreover)\n" ++
  "\n" ++
  "Please highlight specific examples and explain how they contribute to text coherence."

/-- Model of `getContentPrompt()`. -/
def contentPrompt : String :=
  "You are an expert in content analysis and critical reading. Please analyze the following text and provide:\n" ++
  "\n" ++
  "1. MAIN IDEAS:\n" ++
  "   - Central thesis or main argument\n" ++
  "   - Key points in each paragraph\n" ++
  "   - Overall message or purpose\n" ++
  "\n" ++
  "2. SUPPORTING DETAILS:\n" ++
  "   - Examples provided\n" ++
  "   - Statistics or data\n" ++
  "   - Expert opinions or citations\n" ++
  "   - Analogies or comparisons\n" ++
  "\n" ++
  "3. ARGUMENT STRUCTURE:\n" ++
  "   - Claims made by the author\n" ++
  "   - Evidence supporting claims\n" ++
  "   - Warrants (assumptions connecting evidence to claims)\n" ++
  "   - Counter-arguments addressed\n" ++
  "\n" ++
  "4. RHETORICAL ELEMENTS:\n" ++
  "   - Persuasive techniques used\n" ++
  "   - Appeals to logic, emotion, or credibility\n" ++
  "   - Tone and style analysis\n" ++
  "\n" ++
  "Please create a hierarchical outline showing the relationship between main ideas and supporting details."

/-- Model of `getComplexityPrompt()`. -/
def complexityPrompt : String :=
  "You are an expert in text complexity analysis and readability assessment. Please analyze the following text and provide:\n" ++
  "\n" ++
  "1. READABILITY METRICS:\n" ++
  "   - Estimated Flesch-Kincaid Grade Level\n" ++
  "   - Average sentence length\n" ++
  "   - Average syllables per word\n" ++
  "   - Estimated CEFR level (A1-C2)\n" ++
  "\n" ++
  "2. LEXICAL COMPLEXITY:\n" ++
  "   - Vocabulary diversity (Type-Token Ratio estimate)\n" ++
  "   - Proportion of high-frequency vs low-frequency words\n" ++
  "   - Academic vocabulary percentage\n" ++
  "\n" ++
  "3. SYNTACTIC COMPLEXITY:\n" ++
  "   - Sentence structure variety\n" ++
  "   - Clause density\n" ++
  "   - Phrase complexity\n" ++
  "   - Coordination vs subordination\n" ++
  "\n" ++
  "4. RECOMMENDATIONS:\n" ++
  "   - Appropriate reading level/audience\n" ++
  "   - Suggestions for simplification if needed\n" ++
  "   - Educational scaffolding recommendations\n" ++
  "\n" ++
  "Please provide specific metrics and educational insights for teachers and learners."

/-- The `prompts` map built in the `AnalysisPrompts` constructor:
`this.prompts[module]`. -/
def promptsLookup (m : String) : Option String :=
  if m == "vocabulary" then some vocabularyPrompt
  else if m == "grammar" then some grammarPrompt
  else if m == "structure" then some structurePrompt
  else if m == "content" then some contentPrompt
  else if m == "complexity" then some complexityPrompt
  else none

/-- Model of `getPrompt(module, text)`: `this.prompts[module] || this.prompts.vocabulary`
followed by the fixed template around the text. -/
def getPrompt (m text : String) : String :=
  (promptsLookup m).getD vocabularyPrompt ++
    "\n\nText to analyze:\n\"" ++ text ++
    "\"\n\nPlease provide a detailed analysis following the format specified above."

/-! ## `GeminiAPIClient.generateContent`

One `fetch` of the loop is summarized by a `FetchResult`: an HTTP error
response with its status (plus `statusText` and the optional
`errorData.error.message` of its JSON body), a transport-level exception
(`fetch` rejecting), or a 2xx response whose JSON optionally carries
`candidates[0]`.  Within a candidate, `partText` is
`content.parts[0].text` when `content`, `parts` and `parts[0]` all exist.
The endpoint is a function from the zero-based global request count to the
outcome, and the requests issued are logged as the list of their prompts. -/

/-- Model of `data.candidates[0]` of a transport-successful response. -/
structure Candidate where
  finishReason : String
  partText : Option String
deriving DecidableEq

/-- Outcome of one `fetch` call. -/
inductive FetchResult
  | httpErr (status : Nat) (statusText : String) (errDataMsg : Option String)
  | ok (candidate : Option Candidate)
  | threw (msg : String)
deriving DecidableEq

def rateLimitMsg : String := "Rate limit exceeded. Please try again later."

def authMsg : String := "API key is invalid or access is denied. Please check your API key."

def safetyMsg : String := "Content was blocked due to safety concerns. Please try with different text."

def invalidFormatMsg : String := "Invalid response format from API"

def invalidRequestMsg (m : Option String) : String :=
  "Invalid request: " ++ m.getD "Bad request"

def apiFailMsg (status : Nat) (statusText : String) : String :=
  "API request failed: " ++ toString status ++ " " ++ statusText

/-- The terminal message thrown after the retry loop exits:
`Analysis failed after N attempts: <lastError.message>`. -/
def wrapFailMsg (retryAttempts : Nat) (lastErr : String) : String :=
  "Analysis failed after " ++ toString retryAttempts ++ " attempts: " ++ lastErr

/-- Outcome of the `try` block of one attempt: a returned text, a thrown
message, or the direct `continue` of the 429 branch (which does not touch
`lastError`). -/
inductive TryOut
  | ret (text : String)
  | thrw (msg : String)
  | retryNow
deriving DecidableEq

/-- The `try` block of one attempt of `generateContent`.  `attemptsLeft`
is the number of attempts after the current one, so `attemptsLeft > 0` is
the source's `attempt < this.retryAttempts`. -/
def tryBody (out : FetchResult) (attemptsLeft : Nat) : TryOut :=
  match out with
  | .threw m => .thrw m
  | .httpErr status statusText errDataMsg =>
    if status == 429 then
      if attemptsLeft > 0 then .retryNow else .thrw rateLimitMsg
    else if status == 400 then .thrw (invalidRequestMsg errDataMsg)
    else if status == 403 then .thrw authMsg
    else .thrw (apiFailMsg status statusText)
  | .ok none => .thrw invalidFormatMsg
  | .ok (some cand) =>
    if cand.finishReason == "SAFETY" then .thrw safetyMsg
    else
      match cand.partText with
      | some t => .ret t
      | none => .thrw invalidFormatMsg

/-- The retry loop of `generateContent`.  The first `Nat` is the remaining
attempt budget including the current attempt (initially `retryAttempts`);
the trace accumulates the prompt of every request issued; the last
argument is the current `lastError`.  The `catch` block retries on
messages containing `fetch`/`network` (if attempts remain), rethrows
immediately on `API key`/`Invalid request`/`safety concerns` messages,
and on the final attempt breaks out to the wrapping terminal error. -/
def genLoop (endpoint : Nat → FetchResult) (prompt : String) (retryAttempts : Nat) :
    Nat → List String → String → Except String String × List String
  | 0, trace, lastErr => (.error (wrapFailMsg retryAttempts lastErr), trace)
  | fuel + 1, trace, lastErr =>
    let tr := trace ++ [prompt]
    match tryBody (endpoint trace.length) fuel with
    | .ret t => (.ok t, tr)
    | .retryNow => genLoop endpoint prompt retryAttempts fuel tr lastErr
    | .thrw m =>
      if (strContainsSub m "fetch" || strContainsSub m "network") && fuel > 0 then
        genLoop endpoint prompt retryAttempts fuel tr m
      else if strContainsSub m "API key" || strContainsSub m "Invalid request" ||
          strContainsSub m "safety concerns" then
        (.error m, tr)
      else if fuel == 0 then (.error (wrapFailMsg retryAttempts m), tr)
      else genLoop endpoint prompt retryAttempts fuel tr m

/-- Model of `generateContent(prompt)` against a given endpoint, with the client's
`retryAttempts` (3 in the source constructor).  Returns the extracted text
or the thrown error message, together with the extended request trace. -/
def generateContent (endpoint : Nat → FetchResult) (retryAttempts : Nat)
    (prompt : String) (trace : List String) : Except String String × List String :=
  genLoop endpoint prompt retryAttempts retryAttempts trace ""

/-! ## `AnalysisEngineWrapper.analyzeText`

The orchestrator is modelled with the endpoint, the ISO timestamp returned
by `new Date().toISOString()` and the measured `Date.now() - startTime`
as explicit parameters.  Its observable effects — the cache, the request
trace and the `onProgress` invocations — are returned alongside the
thrown-or-returned result. -/

/-- The success entry stored as `results[module]` by
`processModuleResponse` (its `processed: true` flag is constant and its
`timestamp` is the supplied clock value). -/
structure ProcessedData where
  module : String
  rawResponse : String
  timestamp : String
  wordCount : Nat
  structured : Structured
deriving DecidableEq

/-- A `results[module]` entry: either the processed data or the
`{error, module, timestamp}` record stored by the catch block of the
per-module loop. -/
inductive ModuleEntry
  | ok (d : ProcessedData)
  | err (errMsg : String) (module : String) (timestamp : String)
deriving DecidableEq

/-- The `module` property of an entry. -/
def entryModule : ModuleEntry → String
  | .ok d => d.module
  | .err _ m _ => m

/-- Whether an entry carries a truthy `error` property. -/
def entryHasError : ModuleEntry → Bool
  | .ok _ => false
  | .err e _ _ => !(e == "")

/-- Model of `processModuleResponse(module, response, originalText)` — the `try`
branch; the extractors are total so the `catch` branch is unreachable. -/
def processModuleResponse (m response originalText nowIso : String) : ProcessedData :=
  ⟨m, response, nowIso, countWords originalText,
    if m == "vocabulary" then .vocabulary (parseVocabularyResponse response)
    else if m == "grammar" then .grammar (parseGrammarResponse response)
    else if m == "structure" then .structural (parseStructureResponse response)
    else if m == "content" then .content (parseContentResponse response)
    else if m == "complexity" then .complexity (parseComplexityResponse response)
    else .fallback response⟩

/-- One `onProgress` invocation: the source passes
`completed / total * 100` and the message, recorded here as the exact
counter pair together with the message. -/
structure ProgressEvent where
  completed : Nat
  total : Nat
  message : String
deriving DecidableEq

/-- The `results` report object, in property insertion order: the five
fixed fields, then one entry per analyzed module. -/
structure Report where
  text : String
  wordCount : Nat
  charCount : Nat
  analysisDate : String
  processingTime : Nat
  moduleResults : List (String × ModuleEntry)
deriving DecidableEq

/-- One value of `Object.values(results)` at cache-store time. -/
inductive RepVal
  | str (s : String)
  | num (n : Nat)
  | entry (e : ModuleEntry)
deriving DecidableEq

/-- Model of `Object.values(results)`, in insertion order. -/
def reportValues (r : Report) : List RepVal :=
  [.str r.text, .num r.wordCount, .num r.charCount, .str r.analysisDate,
   .num r.processingTime] ++ r.moduleResults.map (fun p => .entry p.2)

/-- JavaScript truthiness of a report value (`r` in `r && !r.error`). -/
def repTruthy : RepVal → Bool
  | .str s => !(s == "")
  | .num n => !(n == 0)
  | .entry _ => true

/-- Truthiness of `r.error` for a report value: plain strings and numbers
have no `error` property. -/
def repHasError : RepVal → Bool
  | .str _ => false
  | .num _ => false
  | .entry e => entryHasError e

/-- The cache-store guard `Object.values(results).some(r => r && !r.error)`. -/
def cacheGuard (r : Report) : Bool :=
  (reportValues r).any (fun v => repTruthy v && !repHasError v)

/-- Mutable engine state visible across `analyzeText` calls: the `Map`
cache and the cumulative log of issued requests (their prompts, in
order). -/
structure EngineState where
  cache : List (String × Report)
  trace : List String
deriving DecidableEq

/-- State of the per-module `for` loop. -/
structure LoopState where
  results : List (String × ModuleEntry)
  completed : Nat
  trace : List String
  events : List ProgressEvent
deriving DecidableEq

/-- The per-module `for` loop of `analyzeText`: rate-limit (a pure delay,
not modelled), one `generateContent` call, then either the processed entry
plus an `onProgress` invocation, or — when the client threw — the error
entry with no invocation. -/
def runModules (endpoint : Nat → FetchResult) (text nowIso : String)
    (hasProgress : Bool) (total : Nat) : List String → LoopState → LoopState
  | [], st => st
  | m :: ms, st =>
    let prompt := getPrompt m text
    match generateContent endpoint 3 prompt st.trace with
    | (.ok response, tr) =>
      let entry := ModuleEntry.ok (processModuleResponse m response text nowIso)
      let completed := st.completed + 1
      let events :=
        if hasProgress then
          st.events ++ [⟨completed, total, "Completed " ++ m ++ " analysis"⟩]
        else st.events
      runModules endpoint text nowIso hasProgress total ms
        ⟨jsObjSet st.results m entry, completed, tr, events⟩
    | (.error e, tr) =>
      runModules endpoint text nowIso hasProgress total ms
        ⟨jsObjSet st.results m (.err e m nowIso), st.completed, tr, st.events⟩

/-- Model of `options.modules || ['vocabulary', 'grammar', 'structure', 'content',
'complexity']` (an explicitly supplied empty array is truthy in
JavaScript and therefore kept). -/
def jsModules (modulesOpt : Option (List String)) : List String :=
  modulesOpt.getD ["vocabulary", "grammar", "structure", "content", "complexity"]

def emptyTextMsg : String := "Text cannot be empty"

def tooLongMsg : String := "Text is too long. Please use texts under 50,000 characters."

/-- Model of `analyzeText(text, options)`.  Validation, cache lookup, the
sequential per-module loop, and the guarded cache store.  Note that
`generateCacheKey` sorts the `modules` array **in place**
(`modules.sort()`), so the loop below iterates the sorted list.  Returns
the report (or the thrown message), the new engine state and the
`onProgress` invocations. -/
def analyzeText (endpoint : Nat → FetchResult) (nowIso : String) (elapsedMs : Nat)
    (st : EngineState) (text : String) (modulesOpt : Option (List String))
    (hasProgress : Bool) :
    Except String Report × EngineState × List ProgressEvent :=
  if jsTrim text == "" then (.error emptyTextMsg, st, [])
  else if text.length > 50000 then (.error tooLongMsg, st, [])
  else
    let modules := jsModules modulesOpt
    let cacheKey := generateCacheKey text modules
    let sortedModules := sortJS modules
    match jsObjGet st.cache cacheKey with
    | some cached => (.ok cached, st, [])
    | none =>
      let ls := runModules endpoint text nowIso hasProgress sortedModules.length
        sortedModules ⟨[], 0, st.trace, []⟩
      let rep : Report :=
        ⟨text, countWords text, text.length, nowIso, elapsedMs, ls.results⟩
      let cache :=
        if cacheGuard rep then jsObjSet st.cache cacheKey rep else st.cache
      (.ok rep, ⟨cache, ls.trace⟩, ls.events)

/-! ## Helper definitions used by theorem statements -/

/-- Whether an `analyzeText` outcome is a returned report (rather than a
thrown error). -/
def exceptIsOk : Except String Report → Bool
  | .ok _ => true
  | .error _ => false

/-- The `onProgress` invocations produced when every category starting
from `completed` previously completed categories succeeds: one invocation
per category, in order, with the completed counter increasing by one
each time. -/
def progressEventsFor (total : Nat) : Nat → List String → List ProgressEvent
  | _, [] => []
  | c, m :: ms =>
    ⟨c + 1, total, "Completed " ++ m ++ " analysis"⟩ :: progressEventsFor total (c + 1) ms

/-- A bullet line `<marker> <item>`. -/
def mkBulletLine (p : Char × String) : String :=
  String.mk (p.1 :: ' ' :: p.2.toList)

/-- A raw response consisting of the heading `1. Academic Vocabulary:`
followed by the given bullet lines. -/
def mkVocabRaw (bullets : List (Char × String)) : String :=
  jsJoin '\n' ("1. Academic Vocabulary:" :: bullets.map mkBulletLine)

/-- A well-behaved bullet item: marker `-` or `•`, item non-empty, already
trimmed, and free of newlines and of the `,`/`;` separators at which
`extractWordList` truncates. -/
def plainItem (p : Char × String) : Prop :=
  (p.1 = '-' ∨ p.1 = '•') ∧ p.2 ≠ "" ∧ jsTrim p.2 = p.2 ∧
    ∀ c ∈ p.2.toList, ¬(c = '\n' ∨ c = ',' ∨ c = ';')
/-- The loop state produced by a cache-missing `analyzeText` call: the
sorted module list fed through `runModules` from a fresh loop state. -/
def missRun (endpoint : Nat → FetchResult) (nowIso : String) (st : EngineState)
    (text : String) (modulesOpt : Option (List String)) (hasProgress : Bool) : LoopState :=
  runModules endpoint text nowIso hasProgress (sortJS (jsModules modulesOpt)).length
    (sortJS (jsModules modulesOpt)) ⟨[], 0, st.trace, []⟩

/-- The report built by a cache-missing `analyzeText` call. -/
def missReport (endpoint : Nat → FetchResult) (nowIso : String) (elapsedMs : Nat)
    (st : EngineState) (text : String) (modulesOpt : Option (List String))
    (hasProgress : Bool) : Report :=
  ⟨text, countWords text, text.length, nowIso, elapsedMs,
   (missRun endpoint nowIso st text modulesOpt hasProgress).results⟩

/-- The entry stored for module `m` originates in the client call made
for it: either `generateContent` on `m`'s prompt returned a text (at the
request trace current when `m` was processed) and the entry is that
text's processed data, or it threw and the entry is the
`{error, module, timestamp}` record carrying exactly the thrown
message. -/
def entryFromCall (endpoint : Nat → FetchResult) (text nowIso m : String)
    (e : ModuleEntry) : Prop :=
  ∃ tr,
    (∃ resp tr2, generateContent endpoint 3 (getPrompt m text) tr = (.ok resp, tr2) ∧
      e = .ok (processModuleResponse m resp text nowIso)) ∨
    (∃ msg tr2, generateContent endpoint 3 (getPrompt m text) tr = (.error msg, tr2) ∧
      e = .err msg m nowIso)

/-- The categories of a run whose client call succeeded, in processing
order, starting from the given request trace — the per-module loop
emits exactly one `onProgress` invocation for each of these. -/
def successfulModules (endpoint : Nat → FetchResult) (text : String) :
    List String → List String → List String
  | [], _ => []
  | m :: ms, trace =>
    match generateContent endpoint 3 (getPrompt m text) trace with
    | (.ok _, tr) => m :: successfulModules endpoint text ms tr
    | (.error _, tr) => successfulModules endpoint text ms tr

/-- Structural decidable equality for `Except` outcomes. -/
instance {ε α : Type} [DecidableEq ε] [DecidableEq α] : DecidableEq (Except ε α) := fun a b =>
  match a, b with
  | .ok x, .ok y =>
    if h : x = y then isTrue (by rw [h]) else isFalse (by intro hc; cases hc; exact h rfl)
  | .error x, .error y =>
    if h : x = y then isTrue (by rw [h]) else isFalse (by intro hc; cases hc; exact h rfl)
  | .ok _, .error _ => isFalse (by intro hc; cases hc)
  | .error _, .ok _ => isFalse (by intro hc; cases hc)

/-! ## General lemmas about the JavaScript primitives -/

theorem jsObjGet_set_self {α : Type} (obj : List (String × α)) (k : String) (v : α) :
    jsObjGet (jsObjSet obj k v) k = some v := by
  induction obj with
  | nil => simp [jsObjGet, jsObjSet]
  | cons p rest ih =>
    by_cases h : p.1 = k
    · simp [jsObjGet, jsObjSet, h]
    · simp [jsObjGet, jsObjSet, h, ih]

theorem jsObjGet_set_ne {α : Type} (obj : List (String × α)) (k k' : String) (v : α)
    (h : k' ≠ k) : jsObjGet (jsObjSet obj k v) k' = jsObjGet obj k' := by
  induction obj with
  | nil => simp [jsObjGet, jsObjSet, Ne.symm h]
  | cons p rest ih =>
    by_cases hp : p.1 = k
    · simp [jsObjGet, jsObjSet, hp, Ne.symm h]
    · simp [jsObjGet, jsObjSet, hp, ih]

theorem charsLe_total (a b : List Char) : charsLe a b = true ∨ charsLe b a = true := by
  induction a generalizing b with
  | nil => left; rfl
  | cons x xs ih =>
    cases b with
    | nil => right; rfl
    | cons y ys =>
      by_cases h1 : x.toNat < y.toNat
      · left; simp only [charsLe]; rw [if_pos h1]
      · by_cases h2 : y.toNat < x.toNat
        · right; simp only [charsLe]; rw [if_pos h2]
        · rcases ih ys with h | h
          · left; simp only [charsLe]; rw [if_neg h1, if_neg h2]; exact h
          · right; simp only [charsLe]; rw [if_neg h2, if_neg h1]; exact h

theorem charsLe_trans (a b c : List Char) (hab : charsLe a b = true)
    (hbc : charsLe b c = true) : charsLe a c = true := by
  induction a generalizing b c with
  | nil => rfl
  | cons x xs ih =>
    cases b with
    | nil => simp [charsLe] at hab
    | cons y ys =>
      cases c with
      | nil => simp [charsLe] at hbc
      | cons z zs =>
        simp only [charsLe] at hab hbc ⊢
        by_cases h1 : x.toNat < y.toNat
        · by_cases h2 : y.toNat < z.toNat
          · rw [if_pos (by omega)]
          · by_cases h3 : z.toNat < y.toNat
            · rw [if_neg h2, if_pos h3] at hbc
              exact absurd hbc Bool.false_ne_true
            · rw [if_pos (by omega)]
        · by_cases h3 : y.toNat < x.toNat
          · rw [if_neg h1, if_pos h3] at hab
            exact absurd hab Bool.false_ne_true
          · by_cases h2 : y.toNat < z.toNat
            · rw [if_pos (by omega)]
            · by_cases h4 : z.toNat < y.toNat
              · rw [if_neg h2, if_pos h4] at hbc
                exact absurd hbc Bool.false_ne_true
              · rw [if_neg h1, if_neg h3] at hab
                rw [if_neg h2, if_neg h4] at hbc
                rw [if_neg (by omega), if_neg (by omega)]
                exact ih ys zs hab hbc

theorem char_eq_of_toNat_eq {x y : Char} (h : x.toNat = y.toNat) : x = y := by
  have := congrArg Char.ofNat h
  rwa [Char.ofNat_toNat, Char.ofNat_toNat] at this

theorem charsLe_antisymm (a b : List Char) (hab : charsLe a b = true)
    (hba : charsLe b a = true) : a = b := by
  induction a generalizing b with
  | nil =>
    cases b with
    | nil => rfl
    | cons y ys => simp [charsLe] at hba
  | cons x xs ih =>
    cases b with
    | nil => simp [charsLe] at hab
    | cons y ys =>
      simp only [charsLe] at hab hba
      by_cases h1 : x.toNat < y.toNat
      · rw [if_neg (by omega), if_pos h1] at hba
        exact absurd hba Bool.false_ne_true
      · by_cases h2 : y.toNat < x.toNat
        · rw [if_neg h1, if_pos h2] at hab
          exact absurd hab Bool.false_ne_true
        · rw [if_neg h1, if_neg h2] at hab
          rw [if_neg h2, if_neg h1] at hba
          have hx : x = y := char_eq_of_toNat_eq (by omega)
          rw [hx, ih ys hab hba]

theorem sortJS_perm (l : List String) : (sortJS l).Perm l :=
  List.perm_insertionSort jsStrLe l

theorem mem_sortJS {a : String} {l : List String} : a ∈ sortJS l ↔ a ∈ l :=
  (sortJS_perm l).mem_iff

theorem sortJS_eq_of_perm {l1 l2 : List String} (h : l1.Perm l2) :
    sortJS l1 = sortJS l2 := by
  haveI : IsTotal String jsStrLe :=
    ⟨fun a b => charsLe_total a.toList b.toList⟩
  haveI : IsTrans String jsStrLe :=
    ⟨fun a b c => charsLe_trans a.toList b.toList c.toList⟩
  haveI : IsAntisymm String jsStrLe :=
    ⟨fun a b hab hba => by
      have := charsLe_antisymm a.toList b.toList hab hba
      exact String.toList_inj.mp this⟩
  exact List.eq_of_perm_of_sorted
    ((sortJS_perm l1).trans (h.trans (sortJS_perm l2).symm))
    (List.sorted_insertionSort jsStrLe l1)
    (List.sorted_insertionSort jsStrLe l2)

/-! ## Lemmas about `generateContent` -/

theorem rateLimit_not_fetch : strContainsSub rateLimitMsg "fetch" = false := by decide

theorem rateLimit_not_network : strContainsSub rateLimitMsg "network" = false := by decide

theorem rateLimit_not_apiKey : strContainsSub rateLimitMsg "API key" = false := by decide

theorem rateLimit_not_invalidReq : strContainsSub rateLimitMsg "Invalid request" = false := by
  decide

theorem rateLimit_not_safety : strContainsSub rateLimitMsg "safety concerns" = false := by decide

theorem safety_not_fetch : strContainsSub safetyMsg "fetch" = false := by decide

theorem safety_not_network : strContainsSub safetyMsg "network" = false := by decide

theorem safety_has_safety : strContainsSub safetyMsg "safety concerns" = true := by decide

/-- Against an endpoint that answers 429 on every request, the retry loop
consumes its whole budget and ends in the terminal wrapper around the
rate-limit message, having issued exactly `fuel` requests. -/
theorem genLoop_429 (endpoint : Nat → FetchResult) (prompt : String) (ra : Nat)
    (h : ∀ n, ∃ stx ed, endpoint n = .httpErr 429 stx ed) :
    ∀ fuel, 1 ≤ fuel → ∀ trace lastErr,
      genLoop endpoint prompt ra fuel trace lastErr
        = (.error (wrapFailMsg ra rateLimitMsg), trace ++ List.replicate fuel prompt) := by
  intro fuel
  induction fuel with
  | zero => omega
  | succ n ih =>
    intro _ trace lastErr
    obtain ⟨stx, ed, hep⟩ := h trace.length
    cases n with
    | zero =>
      simp [genLoop, hep, tryBody, rateLimit_not_fetch, rateLimit_not_network,
        rateLimit_not_apiKey, rateLimit_not_invalidReq, rateLimit_not_safety]
    | succ m =>
      have step : genLoop endpoint prompt ra (m + 1 + 1) trace lastErr
          = genLoop endpoint prompt ra (m + 1) (trace ++ [prompt]) lastErr := by
        simp [genLoop, hep, tryBody]
      rw [step, ih (by omega) (trace ++ [prompt]) lastErr]
      simp [List.replicate_succ]

/-- Claim C3: if the remote endpoint returns a throttling (HTTP 429)
response on every attempt, `generateContent` fails with the terminal
error wrapping the rate-limit message after exactly `retryAttempts`
(default 3) requests — the trace grows by exactly `retryAttempts`
prompts, neither fewer nor more. -/
theorem generateContent_always429_exhausts_attempts
    (endpoint : Nat → FetchResult) (retryAttempts : Nat) (prompt : String)
    (trace : List String) (hra : 1 ≤ retryAttempts)
    (h429 : ∀ n, ∃ stx ed, endpoint n = .httpErr 429 stx ed) :
    generateContent endpoint retryAttempts prompt trace
      = (.error (wrapFailMsg retryAttempts rateLimitMsg),
         trace ++ List.replicate retryAttempts prompt) :=
  genLoop_429 endpoint prompt retryAttempts h429 retryAttempts hra trace ""

/-- Witness for C3 at the default `retryAttempts = 3`: exactly three
requests are issued and the resulting message wraps the rate-limit
message. -/
theorem generateContent_always429_exhausts_attempts_witness :
    (1 ≤ 3 ∧ ∀ n : Nat, ∃ stx ed,
        (fun _ => FetchResult.httpErr 429 "Too Many Requests" none) n
          = FetchResult.httpErr 429 stx ed) ∧
    generateContent (fun _ => FetchResult.httpErr 429 "Too Many Requests" none) 3 "p" []
      = (.error "Analysis failed after 3 attempts: Rate limit exceeded. Please try again later.",
         ["p", "p", "p"]) := by
  refine ⟨⟨by decide, fun n => ⟨"Too Many Requests", none, rfl⟩⟩, ?_⟩
  have h := generateContent_always429_exhausts_attempts
    (fun _ => FetchResult.httpErr 429 "Too Many Requests" none) 3 "p" []
    (by decide) (fun n => ⟨"Too Many Requests", none, rfl⟩)
  rw [h]
  simp only [Prod.mk.injEq]
  exact ⟨congrArg Except.error (by decide), by decide⟩

/-- Claim C4: a transport-successful response whose candidate carries
`finishReason = SAFETY` makes `generateContent` fail immediately with the
safety-block message after exactly one request, regardless of how many
attempts remain. -/
theorem generateContent_safety_fails_immediately
    (endpoint : Nat → FetchResult) (retryAttempts : Nat) (prompt : String)
    (trace : List String) (cand : Candidate) (hra : 1 ≤ retryAttempts)
    (h0 : endpoint trace.length = .ok (some cand))
    (hs : cand.finishReason = "SAFETY") :
    generateContent endpoint retryAttempts prompt trace
      = (.error safetyMsg, trace ++ [prompt]) := by
  obtain ⟨n, rfl⟩ : ∃ n, retryAttempts = n + 1 := ⟨retryAttempts - 1, by omega⟩
  simp [generateContent, genLoop, h0, tryBody, hs, safety_not_fetch,
    safety_not_network, safety_has_safety]

/-- Witness for C4 with three attempts available: the call fails on the
first request with the safety message. -/
theorem generateContent_safety_fails_immediately_witness :
    (1 ≤ 3 ∧
      (fun _ => FetchResult.ok (some ⟨"SAFETY", some "x"⟩)) (List.length ([] : List String))
        = FetchResult.ok (some ⟨"SAFETY", some "x"⟩) ∧
      Candidate.finishReason ⟨"SAFETY", some "x"⟩ = "SAFETY") ∧
    generateContent (fun _ => FetchResult.ok (some ⟨"SAFETY", some "x"⟩)) 3 "p" []
      = (.error "Content was blocked due to safety concerns. Please try with different text.",
         ["p"]) := by
  refine ⟨⟨by decide, rfl, rfl⟩, ?_⟩
  have h := generateContent_safety_fails_immediately
    (fun _ => FetchResult.ok (some ⟨"SAFETY", some "x"⟩)) 3 "p" [] ⟨"SAFETY", some "x"⟩
    (by decide) rfl rfl
  rw [h]
  simp only [Prod.mk.injEq]
  exact ⟨congrArg Except.error (by decide), by decide⟩

/-! ## Claim C1 -/

/-- Claim C1: for every text whose trimmed length is 0 and for every text
longer than 50,000 characters, `analyzeText` throws a validation error,
leaves the engine state (in particular the request trace — the remote
call count) untouched and emits no progress events. -/
theorem analyzeText_invalid_text_rejected_without_network
    (endpoint : Nat → FetchResult) (nowIso : String) (elapsedMs : Nat) (st : EngineState)
    (text : String) (mo : Option (List String)) (hp : Bool)
    (h : jsTrim text = "" ∨ 50000 < text.length) :
    (∃ msg, (analyzeText endpoint nowIso elapsedMs st text mo hp).1 = .error msg) ∧
    (analyzeText endpoint nowIso elapsedMs st text mo hp).2.1 = st ∧
    (analyzeText endpoint nowIso elapsedMs st text mo hp).2.2 = [] := by
  by_cases h1 : jsTrim text = ""
  · refine ⟨⟨emptyTextMsg, ?_⟩, ?_, ?_⟩ <;> simp [analyzeText, h1]
  · have h2 : 50000 < text.length := h.resolve_left h1
    refine ⟨⟨tooLongMsg, ?_⟩, ?_, ?_⟩ <;> simp [analyzeText, h1, h2]

/-- Witness for C1 at the empty text: a validation error and no state
change. -/
theorem analyzeText_invalid_text_rejected_without_network_witness :
    (jsTrim "" = "" ∨ 50000 < String.length "") ∧
    ((∃ msg, (analyzeText (fun _ => FetchResult.threw "down") "d" 0 ⟨[], []⟩ "" none
        false).1 = .error msg) ∧
      (analyzeText (fun _ => FetchResult.threw "down") "d" 0 ⟨[], []⟩ "" none false).2.1
        = ⟨[], []⟩ ∧
      (analyzeText (fun _ => FetchResult.threw "down") "d" 0 ⟨[], []⟩ "" none false).2.2
        = []) :=
  ⟨Or.inl (by decide),
   analyzeText_invalid_text_rejected_without_network (fun _ => FetchResult.threw "down")
     "d" 0 ⟨[], []⟩ "" none false (Or.inl (by decide))⟩

/-! ## Structural lemmas about `analyzeText` -/

theorem text_ne_of_trim_ne {text : String} (h : jsTrim text ≠ "") : text ≠ "" := by
  intro he
  rw [he] at h
  exact h rfl

/-- The cache-store guard is satisfied as soon as the report's `text`
field is a non-empty string — independently of every per-category
entry. -/
theorem cacheGuard_of_text_ne (rep : Report) (h : rep.text ≠ "") :
    cacheGuard rep = true := by
  have hb : (rep.text == "") = false := beq_eq_false_iff_ne.mpr h
  simp [cacheGuard, reportValues, repTruthy, repHasError, hb]

/-- A cache hit returns the stored report unchanged, touches neither the
cache nor the request trace, and emits no progress events. -/
theorem analyzeText_cache_hit (endpoint : Nat → FetchResult) (nowIso : String)
    (elapsedMs : Nat) (st : EngineState) (text : String) (mo : Option (List String))
    (hp : Bool) (rep : Report)
    (h1 : jsTrim text ≠ "") (h2 : ¬ 50000 < text.length)
    (h3 : jsObjGet st.cache (generateCacheKey text (jsModules mo)) = some rep) :
    analyzeText endpoint nowIso elapsedMs st text mo hp = (.ok rep, st, []) := by
  have hb1 : (jsTrim text == "") = false := beq_eq_false_iff_ne.mpr h1
  simp [analyzeText, hb1, h2, h3]

/-- A cache miss runs the per-module loop on the (in-place) sorted module
list and returns the loop's report, trace and events, storing the report
when the guard holds. -/
theorem analyzeText_cache_miss (endpoint : Nat → FetchResult) (nowIso : String)
    (elapsedMs : Nat) (st : EngineState) (text : String) (mo : Option (List String))
    (hp : Bool)
    (h1 : jsTrim text ≠ "") (h2 : ¬ 50000 < text.length)
    (h3 : jsObjGet st.cache (generateCacheKey text (jsModules mo)) = none) :
    analyzeText endpoint nowIso elapsedMs st text mo hp
      = (.ok (missReport endpoint nowIso elapsedMs st text mo hp),
         ⟨if cacheGuard (missReport endpoint nowIso elapsedMs st text mo hp) then
            jsObjSet st.cache (generateCacheKey text (jsModules mo))
              (missReport endpoint nowIso elapsedMs st text mo hp)
          else st.cache,
          (missRun endpoint nowIso st text mo hp).trace⟩,
         (missRun endpoint nowIso st text mo hp).events) := by
  have hb1 : (jsTrim text == "") = false := beq_eq_false_iff_ne.mpr h1
  simp [analyzeText, hb1, h2, h3, missRun, missReport]

/-- A cache miss on a validated text always stores the produced report
under its key (the guard holds via the text field). -/
theorem analyzeText_cache_miss_stores (endpoint : Nat → FetchResult) (nowIso : String)
    (elapsedMs : Nat) (st : EngineState) (text : String) (mo : Option (List String))
    (hp : Bool)
    (h1 : jsTrim text ≠ "") (h2 : ¬ 50000 < text.length)
    (h3 : jsObjGet st.cache (generateCacheKey text (jsModules mo)) = none) :
    analyzeText endpoint nowIso elapsedMs st text mo hp
      = (.ok (missReport endpoint nowIso elapsedMs st text mo hp),
         ⟨jsObjSet st.cache (generateCacheKey text (jsModules mo))
            (missReport endpoint nowIso elapsedMs st text mo hp),
          (missRun endpoint nowIso st text mo hp).trace⟩,
         (missRun endpoint nowIso st text mo hp).events) := by
  have hguard : cacheGuard (missReport endpoint nowIso elapsedMs st text mo hp) = true :=
    cacheGuard_of_text_ne _ (text_ne_of_trim_ne h1)
  rw [analyzeText_cache_miss endpoint nowIso elapsedMs st text mo hp h1 h2 h3, hguard]
  simp

/-! ## Lemmas about the per-module loop -/

/-- One iteration of the loop stores an entry for its module — carrying
that module's name and derived from that module's client call (the
processed response on success, the error record with the thrown message
on failure) — and continues with the remaining modules. -/
theorem runModules_cons_exists (endpoint : Nat → FetchResult) (text nowIso : String)
    (hp : Bool) (total : Nat) (m : String) (ms : List String) (st : LoopState) :
    ∃ (e : ModuleEntry) (st2 : LoopState),
      entryModule e = m ∧ entryFromCall endpoint text nowIso m e ∧
      st2.results = jsObjSet st.results m e ∧
      runModules endpoint text nowIso hp total (m :: ms) st
        = runModules endpoint text nowIso hp total ms st2 := by
  cases hgc : generateContent endpoint 3 (getPrompt m text) st.trace with
  | mk res tr =>
    cases res with
    | ok response =>
      refine ⟨.ok (processModuleResponse m response text nowIso),
        ⟨jsObjSet st.results m (.ok (processModuleResponse m response text nowIso)),
         st.completed + 1, tr,
         if hp then
           st.events ++ [⟨st.completed + 1, total, "Completed " ++ m ++ " analysis"⟩]
         else st.events⟩, rfl, ⟨st.trace, Or.inl ⟨response, tr, hgc, rfl⟩⟩, rfl, ?_⟩
      simp [runModules, hgc]
    | error msg =>
      refine ⟨.err msg m nowIso,
        ⟨jsObjSet st.results m (.err msg m nowIso), st.completed, tr, st.events⟩,
        rfl, ⟨st.trace, Or.inr ⟨msg, tr, hgc, rfl⟩⟩, rfl, ?_⟩
      simp [runModules, hgc]

/-- An entry for key `k` that carries `k`'s module name and comes from
`k`'s client call survives the rest of the loop (possibly overwritten by
a fresh entry for the same module, which has the same two properties). -/
theorem runModules_preserve (endpoint : Nat → FetchResult) (text nowIso : String)
    (hp : Bool) (total : Nat) :
    ∀ (ms : List String) (st : LoopState) (k : String) (e : ModuleEntry),
      jsObjGet st.results k = some e → entryModule e = k →
      entryFromCall endpoint text nowIso k e →
      ∃ e2, jsObjGet (runModules endpoint text nowIso hp total ms st).results k = some e2 ∧
        entryModule e2 = k ∧ entryFromCall endpoint text nowIso k e2 := by
  intro ms
  induction ms with
  | nil => exact fun st k e h1 h2 h3 => ⟨e, h1, h2, h3⟩
  | cons m rest ih =>
    intro st k e h1 h2 h3
    obtain ⟨e', st2, he', hcall', hres, hstep⟩ :=
      runModules_cons_exists endpoint text nowIso hp total m rest st
    rw [hstep]
    by_cases hk : m = k
    · subst hk
      exact ih st2 m e' (by rw [hres]; exact jsObjGet_set_self _ _ _) he' hcall'
    · refine ih st2 k e ?_ h2 h3
      rw [hres, jsObjGet_set_ne _ _ _ _ (fun hkm => hk hkm.symm)]
      exact h1

/-- Every module of the processed list ends up with an entry in the
results object that carries its name and comes from its client call,
whatever the endpoint did. -/
theorem runModules_covers (endpoint : Nat → FetchResult) (text nowIso : String)
    (hp : Bool) (total : Nat) :
    ∀ (ms : List String) (st : LoopState) (m : String), m ∈ ms →
      ∃ e, jsObjGet (runModules endpoint text nowIso hp total ms st).results m = some e ∧
        entryModule e = m ∧ entryFromCall endpoint text nowIso m e := by
  intro ms
  induction ms with
  | nil => intro _ m hm; cases hm
  | cons m' rest ih =>
    intro st m hm
    obtain ⟨e', st2, he', hcall', hres, hstep⟩ :=
      runModules_cons_exists endpoint text nowIso hp total m' rest st
    rw [hstep]
    rcases List.mem_cons.mp hm with rfl | hm'
    · exact runModules_preserve endpoint text nowIso hp total rest st2 m e'
        (by rw [hres]; exact jsObjGet_set_self _ _ _) he' hcall'
    · exact ih st2 m hm'

/-! ## Claim C2 -/

/-- Claim C2: whatever the endpoint answers — rate limiting, auth
failures, safety blocks, transport errors or malformed payloads — a
validated, uncached `analyzeText` call returns a completed report in
which every requested category has an entry, and that entry records the
category's own client call: when the call threw, the entry is exactly
the `{error, module, timestamp}` record carrying the thrown message;
when it returned, the entry is the processed response.  No category's
failure aborts the report or the remaining categories. -/
theorem analyzeText_category_failures_isolated (endpoint : Nat → FetchResult)
    (nowIso : String) (elapsedMs : Nat) (st : EngineState) (text : String)
    (mo : Option (List String)) (hp : Bool)
    (h1 : jsTrim text ≠ "") (h2 : ¬ 50000 < text.length)
    (h3 : jsObjGet st.cache (generateCacheKey text (jsModules mo)) = none) :
    ∃ rep, (analyzeText endpoint nowIso elapsedMs st text mo hp).1 = .ok rep ∧
      ∀ m ∈ jsModules mo, ∃ e, jsObjGet rep.moduleResults m = some e ∧
        entryModule e = m ∧ entryFromCall endpoint text nowIso m e := by
  rw [analyzeText_cache_miss endpoint nowIso elapsedMs st text mo hp h1 h2 h3]
  refine ⟨missReport endpoint nowIso elapsedMs st text mo hp, rfl, ?_⟩
  intro m hm
  exact runModules_covers endpoint text nowIso hp (sortJS (jsModules mo)).length
    (sortJS (jsModules mo)) ⟨[], 0, st.trace, []⟩ m (mem_sortJS.mpr hm)

/-- Witness for C2: the first processed category (grammar) hits a fatal
403 while the second (vocabulary) succeeds; the report contains both —
concretely, the grammar entry is the error record carrying the thrown
auth message and the vocabulary entry is the processed response. -/
theorem analyzeText_category_failures_isolated_witness :
    (jsTrim "hi" ≠ "" ∧ ¬ 50000 < String.length "hi" ∧
      jsObjGet (EngineState.cache ⟨[], []⟩)
        (generateCacheKey "hi" (jsModules (some ["vocabulary", "grammar"]))) = none) ∧
    (jsObjGet (missReport
        (fun n => if n == 0 then FetchResult.httpErr 403 "Forbidden" none
                  else FetchResult.ok (some ⟨"STOP", some "fine"⟩))
        "d" 7 ⟨[], []⟩ "hi" (some ["vocabulary", "grammar"]) false).moduleResults
        "grammar" = some (ModuleEntry.err authMsg "grammar" "d") ∧
      jsObjGet (missReport
        (fun n => if n == 0 then FetchResult.httpErr 403 "Forbidden" none
                  else FetchResult.ok (some ⟨"STOP", some "fine"⟩))
        "d" 7 ⟨[], []⟩ "hi" (some ["vocabulary", "grammar"]) false).moduleResults
        "vocabulary"
        = some (ModuleEntry.ok (processModuleResponse "vocabulary" "fine" "hi" "d"))) ∧
    (∃ rep,
      (analyzeText
        (fun n => if n == 0 then FetchResult.httpErr 403 "Forbidden" none
                  else FetchResult.ok (some ⟨"STOP", some "fine"⟩))
        "d" 7 ⟨[], []⟩ "hi" (some ["vocabulary", "grammar"]) false).1 = .ok rep ∧
      ∀ m ∈ jsModules (some ["vocabulary", "grammar"]),
        ∃ e, jsObjGet rep.moduleResults m = some e ∧ entryModule e = m ∧
          entryFromCall
            (fun n => if n == 0 then FetchResult.httpErr 403 "Forbidden" none
                      else FetchResult.ok (some ⟨"STOP", some "fine"⟩))
            "hi" "d" m e) :=
  ⟨⟨by decide, by decide, by decide⟩, ⟨by decide, by decide⟩,
   analyzeText_category_failures_isolated
     (fun n => if n == 0 then FetchResult.httpErr 403 "Forbidden" none
               else FetchResult.ok (some ⟨"STOP", some "fine"⟩))
     "d" 7 ⟨[], []⟩ "hi" (some ["vocabulary", "grammar"]) false
     (by decide) (by decide) (by decide)⟩

/-! ## Claim C5 -/

/-- Claim C5: (a) two category lists that are permutations of each other
produce the same cache key; (b) after any first `analyzeText` call on
`(text, categories)` that returned a report, a second call on the same
pair returns that stored report with the engine state unchanged — so no
additional remote request is issued, whatever the second endpoint would
have answered — and no progress events. -/
theorem cacheKey_perm_invariant_and_cached_reuse (text : String) (l1 l2 : List String)
    (endpoint e2 : Nat → FetchResult) (n1 n2 : String) (el1 el2 : Nat)
    (st : EngineState) (mo : Option (List String)) (hp hp2 : Bool) :
    (l1.Perm l2 → generateCacheKey text l1 = generateCacheKey text l2) ∧
    (∀ rep, (analyzeText endpoint n1 el1 st text mo hp).1 = .ok rep →
      analyzeText e2 n2 el2 (analyzeText endpoint n1 el1 st text mo hp).2.1 text mo hp2
        = (.ok rep, (analyzeText endpoint n1 el1 st text mo hp).2.1, [])) := by
  constructor
  · intro hperm
    unfold generateCacheKey
    rw [sortJS_eq_of_perm hperm]
  · intro rep hrep
    by_cases h1 : jsTrim text = ""
    · have hfirst : (analyzeText endpoint n1 el1 st text mo hp).1 = .error emptyTextMsg := by
        simp [analyzeText, h1]
      rw [hfirst] at hrep
      simp at hrep
    · by_cases h2 : 50000 < text.length
      · have hb1 : (jsTrim text == "") = false := beq_eq_false_iff_ne.mpr h1
        have hfirst : (analyzeText endpoint n1 el1 st text mo hp).1 = .error tooLongMsg := by
          simp [analyzeText, hb1, h2]
        rw [hfirst] at hrep
        simp at hrep
      · cases hc : jsObjGet st.cache (generateCacheKey text (jsModules mo)) with
        | some cached =>
          have hfirst := analyzeText_cache_hit endpoint n1 el1 st text mo hp cached h1 h2 hc
          rw [hfirst] at hrep ⊢
          dsimp only at hrep ⊢
          obtain rfl := Except.ok.inj hrep
          exact analyzeText_cache_hit e2 n2 el2 st text mo hp2 cached h1 h2 hc
        | none =>
          have hfirst := analyzeText_cache_miss_stores endpoint n1 el1 st text mo hp h1 h2 hc
          rw [hfirst] at hrep ⊢
          dsimp only at hrep ⊢
          obtain rfl := Except.ok.inj hrep
          exact analyzeText_cache_hit e2 n2 el2 _ text mo hp2 _ h1 h2
            (jsObjGet_set_self _ _ _)

/-- Witness for C5: the two orders of `[vocabulary, grammar]` share a
cache key, and a concrete second call (against an endpoint that would
throw) returns the first call's report with the first call's state. -/
theorem cacheKey_perm_invariant_and_cached_reuse_witness :
    (List.Perm ["vocabulary", "grammar"] ["grammar", "vocabulary"] ∧
      generateCacheKey "hi" ["vocabulary", "grammar"]
        = generateCacheKey "hi" ["grammar", "vocabulary"]) ∧
    ((analyzeText (fun _ => FetchResult.ok (some ⟨"STOP", some "fine"⟩)) "d" 7 ⟨[], []⟩
        "hi" (some ["grammar"]) false).1.isOk ∧
      analyzeText (fun _ => FetchResult.threw "offline") "x" 9
          (analyzeText (fun _ => FetchResult.ok (some ⟨"STOP", some "fine"⟩)) "d" 7
            ⟨[], []⟩ "hi" (some ["grammar"]) false).2.1 "hi" (some ["grammar"]) false
        = ((analyzeText (fun _ => FetchResult.ok (some ⟨"STOP", some "fine"⟩)) "d" 7
              ⟨[], []⟩ "hi" (some ["grammar"]) false).1,
           (analyzeText (fun _ => FetchResult.ok (some ⟨"STOP", some "fine"⟩)) "d" 7
              ⟨[], []⟩ "hi" (some ["grammar"]) false).2.1, [])) := by
  have hperm : List.Perm ["vocabulary", "grammar"] ["grammar", "vocabulary"] :=
    List.Perm.swap "grammar" "vocabulary" []
  refine ⟨⟨hperm, (cacheKey_perm_invariant_and_cached_reuse "hi"
    ["vocabulary", "grammar"] ["grammar", "vocabulary"]
    (fun _ => FetchResult.ok (some ⟨"STOP", some "fine"⟩))
    (fun _ => FetchResult.threw "offline") "d" "x" 7 9 ⟨[], []⟩ (some ["grammar"])
    false false).1 hperm⟩, ?_, ?_⟩
  · decide
  · obtain ⟨rep, hrep⟩ : ∃ rep,
        (analyzeText (fun _ => FetchResult.ok (some ⟨"STOP", some "fine"⟩)) "d" 7 ⟨[], []⟩
          "hi" (some ["grammar"]) false).1 = .ok rep := ⟨_, rfl⟩
    have h := (cacheKey_perm_invariant_and_cached_reuse "hi"
      ["vocabulary", "grammar"] ["grammar", "vocabulary"]
      (fun _ => FetchResult.ok (some ⟨"STOP", some "fine"⟩))
      (fun _ => FetchResult.threw "offline") "d" "x" 7 9 ⟨[], []⟩ (some ["grammar"])
      false false).2 rep hrep
    rw [h, hrep]

/-! ## Claim C10 -/

/-- Claim C10: every validated, uncached `analyzeText` call stores its
report in the cache under the canonical key — including reports in which
every requested category failed, because the guard
`some(r => r && !r.error)` is already satisfied by the report's non-empty
`text` value — and a later identical call returns that report from the
cache with no state change (no further remote calls). -/
theorem analyzeText_stores_degraded_reports (endpoint : Nat → FetchResult)
    (nowIso : String) (elapsedMs : Nat) (st : EngineState) (text : String)
    (mo : Option (List String)) (hp : Bool)
    (h1 : jsTrim text ≠ "") (h2 : ¬ 50000 < text.length)
    (h3 : jsObjGet st.cache (generateCacheKey text (jsModules mo)) = none) :
    ∃ rep, (analyzeText endpoint nowIso elapsedMs st text mo hp).1 = .ok rep ∧
      jsObjGet (analyzeText endpoint nowIso elapsedMs st text mo hp).2.1.cache
        (generateCacheKey text (jsModules mo)) = some rep ∧
      ∀ (e2 : Nat → FetchResult) (n2 : String) (el2 : Nat) (hp2 : Bool),
        analyzeText e2 n2 el2 (analyzeText endpoint nowIso elapsedMs st text mo hp).2.1
            text mo hp2
          = (.ok rep, (analyzeText endpoint nowIso elapsedMs st text mo hp).2.1, []) := by
  rw [analyzeText_cache_miss_stores endpoint nowIso elapsedMs st text mo hp h1 h2 h3]
  refine ⟨missReport endpoint nowIso elapsedMs st text mo hp, rfl, ?_, ?_⟩
  · exact jsObjGet_set_self _ _ _
  · intro e2 n2 el2 hp2
    exact analyzeText_cache_hit e2 n2 el2 _ text mo hp2 _ h1 h2 (jsObjGet_set_self _ _ _)

/-- Witness for C10 against an endpoint on which every category fails
fatally (403): the fully degraded report — whose only module entry is an
error record — is nevertheless cached and served to the identical second
call. -/
theorem analyzeText_stores_degraded_reports_witness :
    (jsTrim "hi" ≠ "" ∧ ¬ 50000 < String.length "hi" ∧
      jsObjGet (EngineState.cache ⟨[], []⟩)
        (generateCacheKey "hi" (jsModules (some ["grammar"]))) = none ∧
      (missReport (fun _ => FetchResult.httpErr 403 "Forbidden" none) "d" 7 ⟨[], []⟩
          "hi" (some ["grammar"]) false).moduleResults.all
        (fun p => entryHasError p.2) = true) ∧
    (∃ rep,
      (analyzeText (fun _ => FetchResult.httpErr 403 "Forbidden" none) "d" 7 ⟨[], []⟩
        "hi" (some ["grammar"]) false).1 = .ok rep ∧
      jsObjGet (analyzeText (fun _ => FetchResult.httpErr 403 "Forbidden" none) "d" 7
          ⟨[], []⟩ "hi" (some ["grammar"]) false).2.1.cache
        (generateCacheKey "hi" (jsModules (some ["grammar"]))) = some rep ∧
      ∀ (e2 : Nat → FetchResult) (n2 : String) (el2 : Nat) (hp2 : Bool),
        analyzeText e2 n2 el2
            (analyzeText (fun _ => FetchResult.httpErr 403 "Forbidden" none) "d" 7
              ⟨[], []⟩ "hi" (some ["grammar"]) false).2.1 "hi" (some ["grammar"]) hp2
          = (.ok rep,
             (analyzeText (fun _ => FetchResult.httpErr 403 "Forbidden" none) "d" 7
               ⟨[], []⟩ "hi" (some ["grammar"]) false).2.1, [])) :=
  ⟨⟨by decide, by decide, by decide, by decide⟩,
   analyzeText_stores_degraded_reports (fun _ => FetchResult.httpErr 403 "Forbidden" none)
     "d" 7 ⟨[], []⟩ "hi" (some ["grammar"]) false (by decide) (by decide) (by decide)⟩

/-! ## Lemmas about fully successful and fully failing endpoints -/

theorem auth_not_fetch : strContainsSub authMsg "fetch" = false := by decide

theorem auth_not_network : strContainsSub authMsg "network" = false := by decide

theorem auth_has_apiKey : strContainsSub authMsg "API key" = true := by decide

/-- Against an endpoint whose next answer is a complete candidate with a
text part, `generateContent` returns that text after exactly one
request. -/
theorem generateContent_ok (endpoint : Nat → FetchResult) (cand : Candidate)
    (resp : String) (hfr : (cand.finishReason == "SAFETY") = false)
    (hpt : cand.partText = some resp) (prompt : String) (trace : List String)
    (h : endpoint trace.length = .ok (some cand)) :
    generateContent endpoint 3 prompt trace = (.ok resp, trace ++ [prompt]) := by
  simp [generateContent, genLoop, h, tryBody, hfr, hpt]

/-- Against an endpoint whose next answer is HTTP 403, `generateContent`
fails fatally with the auth message after exactly one request. -/
theorem generateContent_403 (endpoint : Nat → FetchResult) (stx : String)
    (ed : Option String) (prompt : String) (trace : List String)
    (h : endpoint trace.length = .httpErr 403 stx ed) :
    generateContent endpoint 3 prompt trace = (.error authMsg, trace ++ [prompt]) := by
  simp [generateContent, genLoop, h, tryBody, auth_not_fetch, auth_not_network,
    auth_has_apiKey]

/-- With an endpoint that always answers a complete candidate, the loop
issues exactly one request per module, in list order. -/
theorem runModules_ok_trace (endpoint : Nat → FetchResult) (cand : Candidate)
    (resp : String) (hfr : (cand.finishReason == "SAFETY") = false)
    (hpt : cand.partText = some resp) (hok : ∀ n, endpoint n = .ok (some cand))
    (text nowIso : String) (hp : Bool) (total : Nat) :
    ∀ (ms : List String) (st : LoopState),
      (runModules endpoint text nowIso hp total ms st).trace
        = st.trace ++ ms.map (fun m => getPrompt m text) := by
  intro ms
  induction ms with
  | nil => intro st; simp [runModules]
  | cons m rest ih =>
    intro st
    have hgc := generateContent_ok endpoint cand resp hfr hpt (getPrompt m text) st.trace
      (hok st.trace.length)
    simp [runModules, hgc, ih]

/-- With an endpoint that always answers a complete candidate and a
supplied `onProgress`, the loop emits exactly one event per module, in
order, with the completed counter increasing by one each time. -/
theorem runModules_ok_events (endpoint : Nat → FetchResult) (cand : Candidate)
    (resp : String) (hfr : (cand.finishReason == "SAFETY") = false)
    (hpt : cand.partText = some resp) (hok : ∀ n, endpoint n = .ok (some cand))
    (text nowIso : String) (total : Nat) :
    ∀ (ms : List String) (st : LoopState),
      (runModules endpoint text nowIso true total ms st).events
        = st.events ++ progressEventsFor total st.completed ms := by
  intro ms
  induction ms with
  | nil => intro st; simp [runModules, progressEventsFor]
  | cons m rest ih =>
    intro st
    have hgc := generateContent_ok endpoint cand resp hfr hpt (getPrompt m text) st.trace
      (hok st.trace.length)
    simp [runModules, hgc, ih, progressEventsFor]

/-- With an endpoint that always answers 403, every module fails and the
loop emits no events at all. -/
theorem runModules_403_events (endpoint : Nat → FetchResult)
    (h403 : ∀ n, ∃ stx ed, endpoint n = .httpErr 403 stx ed)
    (text nowIso : String) (hp : Bool) (total : Nat) :
    ∀ (ms : List String) (st : LoopState),
      (runModules endpoint text nowIso hp total ms st).events = st.events := by
  intro ms
  induction ms with
  | nil => intro st; simp [runModules]
  | cons m rest ih =>
    intro st
    obtain ⟨stx, ed, hep⟩ := h403 st.trace.length
    have hgc := generateContent_403 endpoint stx ed (getPrompt m text) st.trace hep
    simp [runModules, hgc, ih]

theorem string_toList_append (s t : String) : (s ++ t).toList = s.toList ++ t.toList := by
  cases s
  cases t
  rfl

/-! ## Claim C6 -/

/-- Claim C6 (amended): categories are processed strictly sequentially,
but in lexicographically sorted order, not in the caller-supplied order —
`generateCacheKey` sorts the `modules` array in place before the loop
runs.  With an endpoint that always succeeds, the request trace grows by
exactly one prompt per requested category, in sorted order. -/
theorem analyzeText_processes_categories_in_sorted_order (endpoint : Nat → FetchResult)
    (cand : Candidate) (resp : String) (nowIso : String) (elapsedMs : Nat)
    (st : EngineState) (text : String) (mo : Option (List String)) (hp : Bool)
    (hfr : (cand.finishReason == "SAFETY") = false) (hpt : cand.partText = some resp)
    (hok : ∀ n, endpoint n = .ok (some cand))
    (h1 : jsTrim text ≠ "") (h2 : ¬ 50000 < text.length)
    (h3 : jsObjGet st.cache (generateCacheKey text (jsModules mo)) = none) :
    (analyzeText endpoint nowIso elapsedMs st text mo hp).2.1.trace
      = st.trace ++ (sortJS (jsModules mo)).map (fun m => getPrompt m text) := by
  rw [analyzeText_cache_miss_stores endpoint nowIso elapsedMs st text mo hp h1 h2 h3]
  exact runModules_ok_trace endpoint cand resp hfr hpt hok text nowIso hp
    (sortJS (jsModules mo)).length (sortJS (jsModules mo)) ⟨[], 0, st.trace, []⟩

/-- Counterexample to C6 as stated: with the supplied order
`[vocabulary, grammar]`, the grammar request is issued first — the call
sequence equals the sorted order and differs from the supplied order. -/
theorem analyzeText_order_counterexample :
    (analyzeText (fun _ => FetchResult.ok (some ⟨"STOP", some "fine"⟩)) "d" 7 ⟨[], []⟩
        "hi" (some ["vocabulary", "grammar"]) false).2.1.trace
      = [getPrompt "grammar" "hi", getPrompt "vocabulary" "hi"] ∧
    [getPrompt "grammar" "hi", getPrompt "vocabulary" "hi"]
      ≠ [getPrompt "vocabulary" "hi", getPrompt "grammar" "hi"] := by
  constructor
  · rw [analyzeText_cache_miss_stores (fun _ => FetchResult.ok (some ⟨"STOP", some "fine"⟩))
      "d" 7 ⟨[], []⟩ "hi" (some ["vocabulary", "grammar"]) false
      (by decide) (by decide) (by decide)]
    show (missRun (fun _ => FetchResult.ok (some ⟨"STOP", some "fine"⟩)) "d" ⟨[], []⟩
      "hi" (some ["vocabulary", "grammar"]) false).trace = _
    rw [missRun, runModules_ok_trace (fun _ => FetchResult.ok (some ⟨"STOP", some "fine"⟩))
      ⟨"STOP", some "fine"⟩ "fine" (by decide) rfl (fun _ => rfl) "hi" "d" false _ _ _]
    rw [show sortJS (jsModules (some ["vocabulary", "grammar"]))
        = ["grammar", "vocabulary"] from by decide]
    rfl
  · intro h
    injection h with h1 _
    have hg' : ((grammarPrompt ++ "\n\nText to analyze:\n\"") ++ "hi")
          ++ "\"\n\nPlease provide a detailed analysis following the format specified above."
        = ((vocabularyPrompt ++ "\n\nText to analyze:\n\"") ++ "hi")
          ++ "\"\n\nPlease provide a detailed analysis following the format specified above." :=
      h1
    have h3 := congrArg String.toList hg'
    simp only [string_toList_append] at h3
    have h6 := List.append_cancel_right (List.append_cancel_right
      (List.append_cancel_right h3))
    exact (by decide : grammarPrompt ≠ vocabularyPrompt) (String.toList_inj.mp h6)

/-- Witness for the amended C6 at a concrete run. -/
theorem analyzeText_processes_categories_in_sorted_order_witness :
    ((Candidate.finishReason ⟨"STOP", some "fine"⟩ == "SAFETY") = false ∧
      Candidate.partText ⟨"STOP", some "fine"⟩ = some "fine" ∧
      jsTrim "hi" ≠ "" ∧ ¬ 50000 < String.length "hi" ∧
      jsObjGet (EngineState.cache ⟨[], []⟩)
        (generateCacheKey "hi" (jsModules (some ["vocabulary", "grammar"]))) = none) ∧
    (analyzeText (fun _ => FetchResult.ok (some ⟨"STOP", some "fine"⟩)) "d" 7 ⟨[], []⟩
        "hi" (some ["vocabulary", "grammar"]) false).2.1.trace
      = [] ++ (sortJS (jsModules (some ["vocabulary", "grammar"]))).map
          (fun m => getPrompt m "hi") :=
  ⟨⟨by decide, rfl, by decide, by decide, by decide⟩,
   analyzeText_processes_categories_in_sorted_order
     (fun _ => FetchResult.ok (some ⟨"STOP", some "fine"⟩)) ⟨"STOP", some "fine"⟩
     "fine" "d" 7 ⟨[], []⟩ "hi" (some ["vocabulary", "grammar"]) false
     (by decide) rfl (fun _ => rfl) (by decide) (by decide) (by decide)⟩

/-! ## Claim C7 -/

/-- For an arbitrary endpoint, the per-module loop emits exactly one
`onProgress` invocation per module whose client call succeeded, in
processing order, with the completed counter increasing by one per
invocation; failed modules emit none. -/
theorem runModules_events_general (endpoint : Nat → FetchResult) (text nowIso : String)
    (total : Nat) :
    ∀ (ms : List String) (st : LoopState),
      (runModules endpoint text nowIso true total ms st).events
        = st.events ++ progressEventsFor total st.completed
            (successfulModules endpoint text ms st.trace) := by
  intro ms
  induction ms with
  | nil => intro st; simp [runModules, successfulModules, progressEventsFor]
  | cons m rest ih =>
    intro st
    cases hgc : generateContent endpoint 3 (getPrompt m text) st.trace with
    | mk res tr =>
      cases res with
      | ok response =>
        have hs : successfulModules endpoint text (m :: rest) st.trace
            = m :: successfulModules endpoint text rest tr := by
          simp only [successfulModules]
          rw [hgc]
        have hstep : runModules endpoint text nowIso true total (m :: rest) st
            = runModules endpoint text nowIso true total rest
                ⟨jsObjSet st.results m
                   (.ok (processModuleResponse m response text nowIso)),
                 st.completed + 1, tr,
                 st.events ++
                   [⟨st.completed + 1, total, "Completed " ++ m ++ " analysis"⟩]⟩ := by
          simp [runModules, hgc]
        rw [hs, hstep, ih]
        simp [progressEventsFor]
      | error msg =>
        have hs : successfulModules endpoint text (m :: rest) st.trace
            = successfulModules endpoint text rest tr := by
          simp only [successfulModules]
          rw [hgc]
        have hstep : runModules endpoint text nowIso true total (m :: rest) st
            = runModules endpoint text nowIso true total rest
                ⟨jsObjSet st.results m (.err msg m nowIso), st.completed, tr,
                 st.events⟩ := by
          simp [runModules, hgc]
        rw [hs, hstep, ih]

/-- Claim C7 (amended): when `onProgress` is supplied, the invocations of
an arbitrary run are exactly one per **successful** category, in
processing order, with the completed counter increasing by one per
invocation (the source passes `completed/total*100`); a category whose
client call threw produces no invocation, so the counter reaches the
category count only when every category succeeds. -/
theorem analyzeText_progress_follows_successes (endpoint : Nat → FetchResult)
    (nowIso : String) (elapsedMs : Nat) (st : EngineState) (text : String)
    (mo : Option (List String))
    (h1 : jsTrim text ≠ "") (h2 : ¬ 50000 < text.length)
    (h3 : jsObjGet st.cache (generateCacheKey text (jsModules mo)) = none) :
    (analyzeText endpoint nowIso elapsedMs st text mo true).2.2
      = progressEventsFor (sortJS (jsModules mo)).length 0
          (successfulModules endpoint text (sortJS (jsModules mo)) st.trace) := by
  rw [analyzeText_cache_miss_stores endpoint nowIso elapsedMs st text mo true h1 h2 h3]
  have h := runModules_events_general endpoint text nowIso
    (sortJS (jsModules mo)).length (sortJS (jsModules mo)) ⟨[], 0, st.trace, []⟩
  simpa [missRun] using h

/-- Counterexample to C7 as stated: two categories are requested and both
resolve (grammar with a simulated auth failure, vocabulary successfully),
yet only one `onProgress` invocation happens — the failed category
produces none. -/
theorem analyzeText_progress_skips_failures_counterexample :
    (analyzeText (fun n => if n == 0 then FetchResult.httpErr 403 "Forbidden" none
        else FetchResult.ok (some ⟨"STOP", some "fine"⟩)) "d" 7 ⟨[], []⟩ "hi"
        (some ["vocabulary", "grammar"]) true).2.2
      = [⟨1, 2, "Completed vocabulary analysis"⟩] ∧
    (jsModules (some ["vocabulary", "grammar"])).length = 2 := by
  constructor
  · decide
  · decide

/-- Witness for the amended C7 at a mixed run: grammar's call fails
(403 on the first request), vocabulary's succeeds, so the run's
successful-category list is `[vocabulary]` and the events are exactly
the single invocation for it. -/
theorem analyzeText_progress_follows_successes_witness :
    (jsTrim "hi" ≠ "" ∧ ¬ 50000 < String.length "hi" ∧
      jsObjGet (EngineState.cache ⟨[], []⟩)
        (generateCacheKey "hi" (jsModules (some ["vocabulary", "grammar"]))) = none ∧
      successfulModules
        (fun n => if n == 0 then FetchResult.httpErr 403 "Forbidden" none
                  else FetchResult.ok (some ⟨"STOP", some "fine"⟩)) "hi"
        (sortJS (jsModules (some ["vocabulary", "grammar"]))) [] = ["vocabulary"]) ∧
    (analyzeText (fun n => if n == 0 then FetchResult.httpErr 403 "Forbidden" none
        else FetchResult.ok (some ⟨"STOP", some "fine"⟩)) "d" 7 ⟨[], []⟩ "hi"
        (some ["vocabulary", "grammar"]) true).2.2
      = progressEventsFor (sortJS (jsModules (some ["vocabulary", "grammar"]))).length 0
          (successfulModules
            (fun n => if n == 0 then FetchResult.httpErr 403 "Forbidden" none
                      else FetchResult.ok (some ⟨"STOP", some "fine"⟩)) "hi"
            (sortJS (jsModules (some ["vocabulary", "grammar"]))) []) :=
  ⟨⟨by decide, by decide, by decide, by decide⟩,
   analyzeText_progress_follows_successes
     (fun n => if n == 0 then FetchResult.httpErr 403 "Forbidden" none
               else FetchResult.ok (some ⟨"STOP", some "fine"⟩))
     "d" 7 ⟨[], []⟩ "hi" (some ["vocabulary", "grammar"])
     (by decide) (by decide) (by decide)⟩

/-! ## Claim C8 -/

/-- Counterexample to C8 as stated: an empty category list and an unknown
category (`bogus`) are both accepted without any validation error — the
empty list yields a report with zero remote calls, and the unknown
category issues a remote call. -/
theorem analyzeText_no_category_validation_counterexample :
    ((analyzeText (fun _ => FetchResult.ok (some ⟨"STOP", some "fine"⟩)) "d" 7 ⟨[], []⟩
        "hi" (some []) false).1).isOk = true ∧
    (analyzeText (fun _ => FetchResult.ok (some ⟨"STOP", some "fine"⟩)) "d" 7 ⟨[], []⟩
        "hi" (some []) false).2.1.trace = [] ∧
    ((analyzeText (fun _ => FetchResult.ok (some ⟨"STOP", some "fine"⟩)) "d" 7 ⟨[], []⟩
        "hi" (some ["bogus"]) false).1).isOk = true ∧
    (analyzeText (fun _ => FetchResult.ok (some ⟨"STOP", some "fine"⟩)) "d" 7 ⟨[], []⟩
        "hi" (some ["bogus"]) false).2.1.trace.length = 1 := by
  refine ⟨?_, ?_, ?_, ?_⟩ <;> decide

/-- Claim C8 (amended): `analyzeText` does not validate the category
list.  An explicitly supplied empty list yields a completed report with
no remote call; a category outside the known enumeration falls back to
the vocabulary prompt and issues a remote call.  No `ValidationError` is
raised in either case. -/
theorem analyzeText_accepts_any_category_list (endpoint : Nat → FetchResult)
    (cand : Candidate) (resp : String) (nowIso : String) (elapsedMs : Nat)
    (st : EngineState) (text m : String) (hp : Bool)
    (hfr : (cand.finishReason == "SAFETY") = false) (hpt : cand.partText = some resp)
    (hok : ∀ n, endpoint n = .ok (some cand))
    (h1 : jsTrim text ≠ "") (h2 : ¬ 50000 < text.length) :
    (jsObjGet st.cache (generateCacheKey text (jsModules (some []))) = none →
      (analyzeText endpoint nowIso elapsedMs st text (some []) hp).1
          = .ok (missReport endpoint nowIso elapsedMs st text (some []) hp) ∧
      (analyzeText endpoint nowIso elapsedMs st text (some []) hp).2.1.trace
        = st.trace) ∧
    (promptsLookup m = none →
      jsObjGet st.cache (generateCacheKey text (jsModules (some [m]))) = none →
      getPrompt m text = getPrompt "vocabulary" text ∧
      (analyzeText endpoint nowIso elapsedMs st text (some [m]) hp).1
          = .ok (missReport endpoint nowIso elapsedMs st text (some [m]) hp) ∧
      (analyzeText endpoint nowIso elapsedMs st text (some [m]) hp).2.1.trace
        = st.trace ++ [getPrompt "vocabulary" text]) := by
  constructor
  · intro h3a
    rw [analyzeText_cache_miss_stores endpoint nowIso elapsedMs st text (some []) hp
      h1 h2 h3a]
    exact ⟨rfl, by simp [missRun, runModules, jsModules, sortJS]⟩
  · intro hm h3b
    have hvoc : promptsLookup "vocabulary" = some vocabularyPrompt := rfl
    have hq : getPrompt m text = getPrompt "vocabulary" text := by
      simp [getPrompt, hm, hvoc]
    rw [analyzeText_cache_miss_stores endpoint nowIso elapsedMs st text (some [m]) hp
      h1 h2 h3b]
    refine ⟨hq, rfl, ?_⟩
    have hsort : sortJS (jsModules (some [m])) = [m] := by
      simp [jsModules, sortJS]
    show (missRun endpoint nowIso st text (some [m]) hp).trace = _
    rw [missRun, hsort, runModules_ok_trace endpoint cand resp hfr hpt hok text nowIso
      hp _ _ _]
    simp [hq]

/-- Witness for the amended C8 at `bogus`. -/
theorem analyzeText_accepts_any_category_list_witness :
    ((Candidate.finishReason ⟨"STOP", some "fine"⟩ == "SAFETY") = false ∧
      jsTrim "hi" ≠ "" ∧ ¬ 50000 < String.length "hi" ∧
      promptsLookup "bogus" = none ∧
      jsObjGet (EngineState.cache ⟨[], []⟩)
        (generateCacheKey "hi" (jsModules (some []))) = none ∧
      jsObjGet (EngineState.cache ⟨[], []⟩)
        (generateCacheKey "hi" (jsModules (some ["bogus"]))) = none) ∧
    (((analyzeText (fun _ => FetchResult.ok (some ⟨"STOP", some "fine"⟩)) "d" 7 ⟨[], []⟩
        "hi" (some []) false).1
          = .ok (missReport (fun _ => FetchResult.ok (some ⟨"STOP", some "fine"⟩)) "d" 7
              ⟨[], []⟩ "hi" (some []) false) ∧
      (analyzeText (fun _ => FetchResult.ok (some ⟨"STOP", some "fine"⟩)) "d" 7 ⟨[], []⟩
        "hi" (some []) false).2.1.trace = []) ∧
    (getPrompt "bogus" "hi" = getPrompt "vocabulary" "hi" ∧
      (analyzeText (fun _ => FetchResult.ok (some ⟨"STOP", some "fine"⟩)) "d" 7 ⟨[], []⟩
        "hi" (some ["bogus"]) false).1
          = .ok (missReport (fun _ => FetchResult.ok (some ⟨"STOP", some "fine"⟩)) "d" 7
              ⟨[], []⟩ "hi" (some ["bogus"]) false) ∧
      (analyzeText (fun _ => FetchResult.ok (some ⟨"STOP", some "fine"⟩)) "d" 7 ⟨[], []⟩
        "hi" (some ["bogus"]) false).2.1.trace
        = [] ++ [getPrompt "vocabulary" "hi"])) := by
  have h := analyzeText_accepts_any_category_list
    (fun _ => FetchResult.ok (some ⟨"STOP", some "fine"⟩)) ⟨"STOP", some "fine"⟩ "fine"
    "d" 7 ⟨[], []⟩ "hi" "bogus" false (by decide) rfl (fun _ => rfl)
    (by decide) (by decide)
  exact ⟨⟨by decide, by decide, by decide, by decide, by decide, by decide⟩,
    h.1 (by decide), h.2 (by decide) (by decide)⟩

/-! ## Split/join round trip -/

theorem splitOnChar_ne_nil (c : Char) (l : List Char) : splitOnChar c l ≠ [] := by
  cases l with
  | nil => simp [splitOnChar]
  | cons x xs =>
    simp only [splitOnChar]
    cases h : splitOnChar c xs with
    | nil => simp
    | cons y ys =>
      by_cases hx : x == c <;> simp [hx]

theorem splitOnChar_no_sep (c : Char) (l : List Char) (h : c ∉ l) :
    splitOnChar c l = [l] := by
  induction l with
  | nil => rfl
  | cons x xs ih =>
    have hx : ¬ x == c := by
      simp only [beq_iff_eq]
      intro hxc
      exact h (hxc ▸ List.mem_cons_self x xs)
    have hxs : c ∉ xs := fun hm => h (List.mem_cons_of_mem x hm)
    simp [splitOnChar, ih hxs, hx]

theorem splitOnChar_cons_sep (c : Char) (rest : List Char) :
    splitOnChar c (c :: rest) = [] :: splitOnChar c rest := by
  simp only [splitOnChar]
  cases h : splitOnChar c rest with
  | nil => exact absurd h (splitOnChar_ne_nil c rest)
  | cons y ys => simp

theorem splitOnChar_append_sep (c : Char) (x rest : List Char) (h : c ∉ x) :
    splitOnChar c (x ++ c :: rest) = x :: splitOnChar c rest := by
  induction x with
  | nil => simpa using splitOnChar_cons_sep c rest
  | cons a x' ih =>
    have ha : ¬ a == c := by
      simp only [beq_iff_eq]
      intro hac
      exact h (hac ▸ List.mem_cons_self a x')
    have hx' : c ∉ x' := fun hm => h (List.mem_cons_of_mem a hm)
    have ihx := ih hx'
    simp only [List.cons_append, splitOnChar, List.append_eq]
    rw [ihx]
    simp [ha]

theorem splitOnChar_joinWith (c : Char) :
    ∀ (xss : List (List Char)), xss ≠ [] → (∀ xs ∈ xss, c ∉ xs) →
      splitOnChar c (joinWith c xss) = xss := by
  intro xss
  induction xss with
  | nil => intro h; exact absurd rfl h
  | cons x rest ih =>
    intro _ hmem
    cases rest with
    | nil =>
      simp only [joinWith]
      exact splitOnChar_no_sep c x (hmem x (List.mem_cons_self x []))
    | cons y ys =>
      have hx : c ∉ x := hmem x (List.mem_cons_self x (y :: ys))
      have hrest : ∀ xs ∈ y :: ys, c ∉ xs := fun xs hxs =>
        hmem xs (List.mem_cons_of_mem x hxs)
      simp only [joinWith]
      rw [splitOnChar_append_sep c x (joinWith c (y :: ys)) hx,
        ih (by simp) hrest]

theorem string_mk_toList (s : String) : String.mk s.toList = s := by
  cases s
  rfl

theorem jsSplit_jsJoin (c : Char) (ss : List String) (hne : ss ≠ [])
    (hc : ∀ s ∈ ss, c ∉ s.toList) : jsSplit c (jsJoin c ss) = ss := by
  unfold jsSplit jsJoin
  have h1 : (String.mk (joinWith c (ss.map String.toList))).toList
      = joinWith c (ss.map String.toList) := rfl
  rw [h1, splitOnChar_joinWith c (ss.map String.toList) (by simpa using hne)
    (by intro xs hxs
        obtain ⟨s, hs, rfl⟩ := List.mem_map.mp hxs
        exact hc s hs)]
  rw [List.map_map]
  have h2 : (String.mk ∘ String.toList) = id := funext fun s => string_mk_toList s
  rw [h2, List.map_id]

/-! ## Trim-invariance lemmas -/

theorem length_dropWhile_le {α : Type} (p : α → Bool) :
    ∀ (l : List α), (l.dropWhile p).length ≤ l.length := by
  intro l
  induction l with
  | nil => exact Nat.le_refl _
  | cons a rest ih =>
    rw [List.dropWhile_cons]
    by_cases h : p a = true
    · rw [if_pos h]
      exact Nat.le_succ_of_le ih
    · rw [if_neg h]

theorem dropWhile_eq_self_head (p : Char → Bool) (c : Char) (cs : List Char)
    (h : (c :: cs).dropWhile p = c :: cs) : p c = false := by
  cases hx : p c with
  | false => rfl
  | true =>
    rw [List.dropWhile_cons, if_pos (by rw [hx])] at h
    have hle := length_dropWhile_le p cs
    have h2 := congrArg List.length h
    simp at h2
    omega

theorem dropWhile_eq_self_of_trim (l : List Char) (h : jsTrimList l = l) :
    l.dropWhile jsIsSpace = l := by
  cases l with
  | nil => rfl
  | cons c cs =>
    by_cases hc : jsIsSpace c = true
    · exfalso
      have h1 : (c :: cs).dropWhile jsIsSpace = cs.dropWhile jsIsSpace := by
        rw [List.dropWhile_cons, if_pos (by rw [hc])]
      have hlen : (jsTrimList (c :: cs)).length ≤ cs.length := by
        unfold jsTrimList
        rw [h1]
        calc ((cs.dropWhile jsIsSpace).reverse.dropWhile jsIsSpace).reverse.length
            = ((cs.dropWhile jsIsSpace).reverse.dropWhile jsIsSpace).length :=
              List.length_reverse _
          _ ≤ (cs.dropWhile jsIsSpace).reverse.length := length_dropWhile_le _ _
          _ = (cs.dropWhile jsIsSpace).length := List.length_reverse _
          _ ≤ cs.length := length_dropWhile_le _ _
      rw [h] at hlen
      simp at hlen
    · rw [List.dropWhile_cons, if_neg hc]

theorem revDropWhile_eq_self_of_trim (l : List Char) (h : jsTrimList l = l) :
    l.reverse.dropWhile jsIsSpace = l.reverse := by
  have h1 := dropWhile_eq_self_of_trim l h
  unfold jsTrimList at h
  rw [h1] at h
  have h2 := congrArg List.reverse h
  rwa [List.reverse_reverse] at h2

theorem trimList_of_ends (l : List Char) (h1 : l.dropWhile jsIsSpace = l)
    (h2 : l.reverse.dropWhile jsIsSpace = l.reverse) : jsTrimList l = l := by
  unfold jsTrimList
  rw [h1, h2, List.reverse_reverse]

/-! ## Bullet-line lemmas -/

theorem trimList_toList (s : String) : (jsTrim s).toList = jsTrimList s.toList := rfl

theorem toList_ne_nil (s : String) (h : s ≠ "") : s.toList ≠ [] := by
  intro hl
  apply h
  cases s with
  | mk data =>
    simp only [String.toList] at hl
    rw [show ("" : String) = String.mk [] from rfl]
    exact congrArg String.mk hl

/-- A `plainItem` bullet line is invariant under trimming. -/
theorem trimList_bulletLine (p : Char × String) (hp : plainItem p) :
    jsTrimList (p.1 :: ' ' :: p.2.toList) = p.1 :: ' ' :: p.2.toList := by
  obtain ⟨hmk, hne, htrim, _⟩ := hp
  have hwl : jsTrimList p.2.toList = p.2.toList := by
    have := congrArg String.toList htrim
    rwa [trimList_toList] at this
  have hmkns : jsIsSpace p.1 = false := by
    rcases hmk with h | h <;> rw [h] <;> rfl
  have hlne : p.2.toList ≠ [] := toList_ne_nil p.2 hne
  apply trimList_of_ends
  · rw [List.dropWhile_cons, if_neg (by rw [hmkns]; exact Bool.false_ne_true)]
  · obtain ⟨c, cs, hc⟩ : ∃ c cs, p.2.toList.reverse = c :: cs := by
      cases hrv : p.2.toList.reverse with
      | nil =>
        exact absurd (by simpa using congrArg List.reverse hrv) hlne
      | cons c cs => exact ⟨c, cs, rfl⟩
    have hr := revDropWhile_eq_self_of_trim p.2.toList hwl
    rw [hc] at hr
    have hcns : jsIsSpace c = false := dropWhile_eq_self_head jsIsSpace c cs hr
    have hshape : (p.1 :: ' ' :: p.2.toList).reverse
        = c :: (cs ++ [' ', p.1]) := by
      have : (p.1 :: ' ' :: p.2.toList).reverse = p.2.toList.reverse ++ [' ', p.1] := by
        simp
      rw [this, hc]
      simp
    rw [hshape, List.dropWhile_cons, if_neg (by rw [hcns]; exact Bool.false_ne_true)]

theorem matchesHeading_nondigit (mk : Char) (l : List Char) (h : mk.isDigit = false) :
    matchesHeading (mk :: l) = false := by
  have ht : List.takeWhile Char.isDigit (mk :: l) = [] := by
    rw [List.takeWhile_cons, if_neg (by simp [h])]
  unfold matchesHeading
  rw [ht]
  simp

theorem takeWhile_all {α : Type} (p : α → Bool) :
    ∀ (l : List α), (∀ a ∈ l, p a = true) → l.takeWhile p = l := by
  intro l
  induction l with
  | nil => intro _; rfl
  | cons a rest ih =>
    intro h
    rw [List.takeWhile_cons, if_pos (h a (List.mem_cons_self a rest)),
      ih (fun b hb => h b (List.mem_cons_of_mem a hb))]

/-! ## Folding the section and word scans over bullet lines -/

/-- A line that is already trimmed, not a heading and non-empty is simply
accumulated into the current section's content. -/
theorem extractSectionsStep_content (st : SecState) (b : String)
    (hb1 : jsTrim b = b) (hb2 : matchesHeading b.toList = false) (hb3 : b.toList ≠ []) :
    extractSectionsStep st b = ⟨st.sections, st.currentSection, st.currentContent ++ [b]⟩ := by
  have he : b.toList.isEmpty = false := by
    cases hx : b.toList with
    | nil => exact absurd hx hb3
    | cons _ _ => rfl
  unfold extractSectionsStep
  rw [hb1]
  dsimp only
  rw [hb2, if_neg Bool.false_ne_true, he, if_neg Bool.false_ne_true]

theorem foldSections_content (blines : List String)
    (hb : ∀ b ∈ blines,
      jsTrim b = b ∧ matchesHeading b.toList = false ∧ b.toList ≠ []) :
    ∀ (secs : List (String × String)) (sec : String) (acc : List String),
      List.foldl extractSectionsStep ⟨secs, sec, acc⟩ blines
        = ⟨secs, sec, acc ++ blines⟩ := by
  induction blines with
  | nil => intro secs sec acc; simp
  | cons b rest ih =>
    intro secs sec acc
    obtain ⟨hb1, hb2, hb3⟩ := hb b (List.mem_cons_self b rest)
    rw [List.foldl_cons, extractSectionsStep_content ⟨secs, sec, acc⟩ b hb1 hb2 hb3,
      ih (fun b' hb' => hb b' (List.mem_cons_of_mem b hb')) secs sec (acc ++ [b])]
    simp

/-- One `extractWordList` step on a well-behaved bullet line collects the
item verbatim. -/
theorem extractWordListStep_bullet (acc : List String) (p : Char × String)
    (hp : plainItem p) : extractWordListStep acc (mkBulletLine p) = acc ++ [p.2] := by
  obtain ⟨hmk, hne, htrim, hsep⟩ := hp
  have hwl : jsTrimList p.2.toList = p.2.toList := by
    have := congrArg String.toList htrim
    rwa [trimList_toList] at this
  have hlne : p.2.toList ≠ [] := toList_ne_nil p.2 hne
  have htl : (mkBulletLine p).toList = p.1 :: ' ' :: p.2.toList := rfl
  have htrimline := trimList_bulletLine p ⟨hmk, hne, htrim, hsep⟩
  have hbul : isBulletLine (p.1 :: ' ' :: p.2.toList) = true := by
    rcases hmk with h | h <;> simp [isBulletLine, h]
  have hclass : (p.1 == '-' || p.1 == '•' || p.1.isDigit || p.1 == '.') = true := by
    rcases hmk with h | h <;> simp [h]
  have hstrip : stripBullet (p.1 :: ' ' :: p.2.toList) = p.2.toList := by
    show (if (p.1 == '-' || p.1 == '•' || p.1.isDigit || p.1 == '.') = true
        then List.dropWhile jsIsSpace (' ' :: p.2.toList)
        else p.1 :: ' ' :: p.2.toList) = p.2.toList
    rw [if_pos hclass, List.dropWhile_cons, if_pos (by rfl)]
    exact dropWhile_eq_self_of_trim p.2.toList hwl
  have hsepkeep : (p.2.toList).takeWhile (fun c => !(c == ',' || c == ';')) = p.2.toList := by
    apply takeWhile_all
    intro c hc
    have hcc := hsep c hc
    have hc1 : (c == ',') = false :=
      beq_eq_false_iff_ne.mpr (fun hh => hcc (Or.inr (Or.inl hh)))
    have hc2 : (c == ';') = false :=
      beq_eq_false_iff_ne.mpr (fun hh => hcc (Or.inr (Or.inr hh)))
    show (!(c == ',' || c == ';')) = true
    rw [hc1, hc2]
    rfl
  have hemp : (p.2.toList).isEmpty = false := by
    cases hx : p.2.toList with
    | nil => exact absurd hx hlne
    | cons _ _ => rfl
  unfold extractWordListStep
  rw [htl, htrimline]
  dsimp only
  rw [hbul, if_pos rfl, hstrip, hsepkeep, hwl, hemp, if_neg Bool.false_ne_true,
    string_mk_toList]

theorem foldWords_bullets (bullets : List (Char × String))
    (h : ∀ p ∈ bullets, plainItem p) :
    ∀ acc, List.foldl extractWordListStep acc (bullets.map mkBulletLine)
      = acc ++ bullets.map (fun p => p.2) := by
  induction bullets with
  | nil => intro acc; simp
  | cons p rest ih =>
    intro acc
    rw [List.map_cons, List.foldl_cons,
      extractWordListStep_bullet acc p (h p (List.mem_cons_self p rest)),
      ih (fun q hq => h q (List.mem_cons_of_mem p hq)) (acc ++ [p.2])]
    simp

/-! ## Claim C9 -/

theorem newline_not_mem_bulletLine (p : Char × String) (hp : plainItem p) :
    '\n' ∉ (mkBulletLine p).toList := by
  obtain ⟨hmk, _, _, hsep⟩ := hp
  intro hmem
  have : '\n' = p.1 ∨ '\n' = ' ' ∨ '\n' ∈ p.2.toList := by
    simpa [mkBulletLine] using hmem
  rcases this with h | h | h
  · rcases hmk with h' | h' <;> rw [h'] at h <;> exact absurd h (by decide)
  · exact absurd h (by decide)
  · exact hsep '\n' h (Or.inl rfl)

theorem bulletLine_good (p : Char × String) (hp : plainItem p) :
    jsTrim (mkBulletLine p) = mkBulletLine p ∧
    matchesHeading (mkBulletLine p).toList = false ∧ (mkBulletLine p).toList ≠ [] := by
  obtain ⟨hmk, hne, htrim, hsep⟩ := hp
  refine ⟨?_, ?_, ?_⟩
  · have h := trimList_bulletLine p ⟨hmk, hne, htrim, hsep⟩
    show String.mk (jsTrimList (mkBulletLine p).toList) = mkBulletLine p
    have htl : (mkBulletLine p).toList = p.1 :: ' ' :: p.2.toList := rfl
    rw [htl, h]
    rfl
  · have htl : (mkBulletLine p).toList = p.1 :: ' ' :: p.2.toList := rfl
    rw [htl]
    apply matchesHeading_nondigit
    rcases hmk with h | h <;> rw [h] <;> rfl
  · intro h
    exact absurd h (by
      have htl : (mkBulletLine p).toList = p.1 :: ' ' :: p.2.toList := rfl
      rw [htl]
      simp)

/-- On a response made of the academic-vocabulary heading followed by
well-behaved bullet lines, `extractSections` produces the single section
`academic vocabulary` holding the joined bullet lines. -/
theorem extractSections_vocabRaw (bullets : List (Char × String))
    (h : ∀ p ∈ bullets, plainItem p) (hbne : bullets ≠ []) :
    extractSections (mkVocabRaw bullets)
      = [("academic vocabulary", jsJoin '\n' (bullets.map mkBulletLine))] := by
  unfold extractSections mkVocabRaw
  rw [jsSplit_jsJoin '\n' ("1. Academic Vocabulary:" :: bullets.map mkBulletLine)
    (by simp)
    (by
      intro s hs
      rcases List.mem_cons.mp hs with rfl | hs'
      · decide
      · obtain ⟨p, hp, rfl⟩ := List.mem_map.mp hs'
        exact newline_not_mem_bulletLine p (h p hp))]
  rw [List.foldl_cons]
  rw [show extractSectionsStep ⟨[], "general", []⟩ "1. Academic Vocabulary:"
      = ⟨[], "academic vocabulary", []⟩ from by decide]
  rw [foldSections_content (bullets.map mkBulletLine)
    (by
      intro b hb
      obtain ⟨p, hp, rfl⟩ := List.mem_map.mp hb
      exact bulletLine_good p (h p hp))
    [] "academic vocabulary" []]
  have hne2 : (bullets.map mkBulletLine) ≠ [] := by simpa using hbne
  have hemp2 : (bullets.map mkBulletLine).isEmpty = false := by
    cases hx : bullets.map mkBulletLine with
    | nil => exact absurd hx hne2
    | cons _ _ => rfl
  dsimp only
  rw [List.nil_append, hemp2, if_neg Bool.false_ne_true]
  rfl

theorem extractWordList_bullets (bullets : List (Char × String))
    (h : ∀ p ∈ bullets, plainItem p) (hbne : bullets ≠ []) :
    extractWordList (jsJoin '\n' (bullets.map mkBulletLine))
      = bullets.map (fun p => p.2) := by
  unfold extractWordList
  rw [jsSplit_jsJoin '\n' (bullets.map mkBulletLine) (by simpa using hbne)
    (by
      intro s hs
      obtain ⟨p, hp, rfl⟩ := List.mem_map.mp hs
      exact newline_not_mem_bulletLine p (h p hp))]
  rw [foldWords_bullets bullets h []]
  rfl

/-- Claim C9 (amended): for a raw response made of the heading
`1. Academic Vocabulary:` followed by bullet lines whose markers are `-`
or `•` and whose items are trimmed, non-empty and free of `,`/`;`/newline,
parsing under the vocabulary category yields exactly those items,
verbatim.  (For `<n>.` markers the replacement `/^[-•\d.]\s*/` strips
only the first marker character, so the claim fails there — see the
counterexample.) -/
theorem parseVocabulary_extracts_plain_bullets (bullets : List (Char × String))
    (h : ∀ p ∈ bullets, plainItem p) :
    (parseVocabularyResponse (mkVocabRaw bullets)).academicVocabulary
      = bullets.map (fun p => p.2) := by
  by_cases hbne : bullets = []
  · subst hbne
    decide
  · show extractAcademicVocabulary (extractSections (mkVocabRaw bullets))
      = bullets.map (fun p => p.2)
    rw [extractSections_vocabRaw bullets h hbne]
    unfold extractAcademicVocabulary
    rw [show List.find? (fun p => strContainsSub p.1 "academic")
        [("academic vocabulary", jsJoin '\n' (bullets.map mkBulletLine))]
        = some ("academic vocabulary", jsJoin '\n' (bullets.map mkBulletLine)) from by
      rw [List.find?_cons_of_pos]
      show strContainsSub "academic vocabulary" "academic" = true
      decide]
    exact extractWordList_bullets bullets h hbne

/-- Counterexample to C9 as stated: a `<n>.` bullet under the academic
vocabulary heading keeps part of its marker — the parsed item is
`". beta"`, not the verbatim item `"beta"`. -/
theorem parseVocabulary_numeric_marker_counterexample :
    (parseVocabularyResponse "1. Academic Vocabulary:\n1. beta").academicVocabulary
      = [". beta"] ∧
    (parseVocabularyResponse "1. Academic Vocabulary:\n1. beta").academicVocabulary
      ≠ ["beta"] := by
  constructor
  · decide
  · decide

/-- Witness for the amended C9 on two bullets with the two markers. -/
theorem parseVocabulary_extracts_plain_bullets_witness :
    (∀ p ∈ [('-', "alpha"), ('•', "beta")], plainItem p) ∧
    (parseVocabularyResponse
        (mkVocabRaw [('-', "alpha"), ('•', "beta")])).academicVocabulary
      = [('-', "alpha"), ('•', "beta")].map (fun p => p.2) := by
  have hp : ∀ p ∈ [('-', "alpha"), ('•', "beta")], plainItem p := by
    intro p hp
    rcases List.mem_cons.mp hp with rfl | hp'
    · exact ⟨Or.inl rfl, by decide, by decide, by decide⟩
    · rcases List.mem_cons.mp hp' with rfl | hp''
      · exact ⟨Or.inr rfl, by decide, by decide, by decide⟩
      · cases hp''
  exact ⟨hp, parseVocabulary_extracts_plain_bullets [('-', "alpha"), ('•', "beta")] hp⟩
